import Mathlib

/-!
Verification development for the sleepmind2 chess engine (C sources).

The definitions below are a shallow embedding of the C code:
machine integers become Nat or Int with explicit truncation where the C width
matters, 64-bit bitboards become Nat values kept below 2 to the 64th power,
fixed C arrays become functions out of Fin, and in-place mutation becomes
explicit state passing.  Each definition names the C function or macro it
embeds, with the source file noted in a comment.
-/

set_option maxRecDepth 16000

/-! ### Bit primitives (bitboard_utils.h, move_generator.c helpers) -/

/-- The value of the C expression 1ULL shifted left by sq. -/
def bit (sq : Nat) : Nat := 1 <<< sq

/-- All 64 bits set: the value of a C uint64_t with every bit one. -/
def mask64 : Nat := 2 ^ 64 - 1

/-- 64-bit bitwise complement, the C operator tilde on uint64_t. -/
def compl64 (x : Nat) : Nat := mask64 ^^^ x

/-- GET_BIT(bb, sq) from bitboard_utils.h, as a Bool (C tests the bit for zero). -/
def GET_BIT (bb sq : Nat) : Bool := bb.testBit sq

/-- POPCOUNT from bitboard_utils.h: denotation of builtin popcountll on a
64-bit value (number of set bits among positions 0..63). -/
def POPCOUNT (bb : Nat) : Nat := ((List.range 64).filter (fun i => bb.testBit i)).length

/-- Count of trailing zero bits among positions 0..63: denotation of builtin
ctzll on a 64-bit value (the first set bit position).  All modeled call sites
guard against a zero argument; the fallback 64 means no valid square. -/
def ctz64 (bb : Nat) : Nat := ((List.range 64).find? (fun i => bb.testBit i)).getD 64

/-- BIT_SCAN_FORWARD from bitboard_utils.h (builtin ctzll); C returns -1 on a
zero argument, which no modeled call site reaches, so we stay in Nat. -/
def BIT_SCAN_FORWARD (bb : Nat) : Nat := ctz64 bb

/-- get_lsb from nnue.c: index of the least significant set bit, -1 when the
bitboard is empty. -/
def get_lsb (bb : Nat) : Int := if bb = 0 then -1 else (ctz64 bb : Int)

/-- get_lsb_index from move_generator.c: same scan but returning SQ_NONE (64)
on the empty bitboard.  The C computes the index through a de Bruijn style
hash table; its value on every nonzero input is the trailing-zero count. -/
def get_lsb_index (bb : Nat) : Nat := if bb = 0 then 64 else ctz64 bb

/-- Iteration of the C pattern: while (bb) take the lowest set bit, clear it,
run the body.  Clearing the lowest set bit is bb AND (bb - 1); the same value
is produced by CLEAR_BIT(bb, BIT_SCAN_FORWARD(bb)).  Bits are visited in
ascending order, exactly as the loops in move_generator.c and nnue.c do.
The fuel counts remaining iterations: a 64-bit bitboard has at most 64 set
bits, so the fuel of 64 in bitFold is never exhausted on modeled inputs. -/
def bitFoldAux {α : Type} (f : α → Nat → α) : Nat → Nat → α → α
  | 0, _, acc => acc
  | fuel + 1, bb, acc =>
    if bb = 0 then acc else bitFoldAux f fuel (bb &&& (bb - 1)) (f acc (ctz64 bb))

def bitFold {α : Type} (f : α → Nat → α) (bb : Nat) (acc : α) : α := bitFoldAux f 64 bb acc

/-! ### Fixed-width integer casts (C truncating conversions, gcc semantics) -/

/-- Conversion of a C int to int16_t: two's-complement truncation. -/
def toInt16 (x : Int) : Int := (x + 32768) % 65536 - 32768

/-- Conversion of a C int to int8_t: two's-complement truncation. -/
def toInt8 (x : Int) : Int := (x + 128) % 256 - 128

theorem toInt16_eq_self {x : Int} (h1 : -32768 ≤ x) (h2 : x < 32768) : toInt16 x = x := by
  unfold toInt16
  omega

theorem toInt16_bounds (x : Int) : -32768 ≤ toInt16 x ∧ toInt16 x < 32768 := by
  unfold toInt16
  constructor
  · have := Int.emod_nonneg (x + 32768) (by norm_num : (65536 : Int) ≠ 0)
    omega
  · have := Int.emod_lt_of_pos (x + 32768) (by norm_num : (0 : Int) < 65536)
    omega

theorem toInt16_add_left (x y : Int) : toInt16 (toInt16 x + y) = toInt16 (x + y) := by
  unfold toInt16
  omega

theorem toInt16_sub_left (x y : Int) : toInt16 (toInt16 x - y) = toInt16 (x - y) := by
  unfold toInt16
  omega

/-! ### Zobrist keys (zobrist.c; identical copy in tt.c)

The C initializes global key tables once at startup from a linear
congruential generator with the fixed seed 1804289383.  We model the tables
as functions whose value is the corresponding draw of that generator, in the
exact order init_zobrist_keys fills them: piece keys for piece type token
1..6, then color 0..1, then square 0..63; then the 16 castling keys; then the
65 en-passant keys (index 64 is the no-en-passant key); then the side key. -/

/-- One step of the generator state: tt_rand_seed = tt_rand_seed * 1103515245
+ 12345 on a 32-bit unsigned. -/
def lcgNext (s : Nat) : Nat := (s * 1103515245 + 12345) % 4294967296

/-- random_uint64 advances the state four times; this is the resulting state. -/
def seedStep (s : Nat) : Nat := lcgNext (lcgNext (lcgNext (lcgNext s)))

/-- State after n calls of random_uint64, starting from the fixed seed.  The
conditional with identical branches forces the intermediate state to a
numeral so that kernel evaluation of deep draws runs in constant stack. -/
def seedIter : Nat → Nat → Nat
  | 0, s => s
  | n + 1, s =>
    let s2 := seedStep s
    if s2 % 2 = 0 then seedIter n s2 else seedIter n s2

def zobristSeedAfter (n : Nat) : Nat := seedIter n 1804289383

/-- The value random_uint64 assembles from four 16-bit draws: the first draw
lands at bits 16..31, the second at 0..15, the third at 48..63, the fourth at
32..47 (loop i = 0 then i = 32 in the C). -/
def random_uint64_value (seed : Nat) : Nat :=
  let s1 := lcgNext seed
  let d1 := (s1 / 65536) % 65536
  let s2 := lcgNext s1
  let d2 := (s2 / 65536) % 65536
  let s3 := lcgNext s2
  let d3 := (s3 / 65536) % 65536
  let s4 := lcgNext s3
  let d4 := (s4 / 65536) % 65536
  (d1 <<< 16) ||| d2 ||| (d3 <<< 48) ||| (d4 <<< 32)

/-- The n-th value returned by random_uint64 during key initialization. -/
def zobristDraw (n : Nat) : Nat := random_uint64_value (zobristSeedAfter n)

/-- zobrist_piece_keys indexed by piece type token (1..6), color (0..1) and
square; also the denotation of the flat macro ZOBRIST_PIECE_KEY, whose layout
(pieceType-1)*128 + color*64 + square enumerates in the same order the
initialization loop draws. -/
def zobrist_piece_keys (pt c sq : Nat) : Nat := zobristDraw (((pt - 1) * 2 + c) * 64 + sq)

def zobrist_castling_keys (i : Nat) : Nat := zobristDraw (768 + i)

def zobrist_enpassant_keys (i : Nat) : Nat := zobristDraw (784 + i)

def zobrist_side_to_move_key : Nat := zobristDraw 849

/-! ### Board state (board.h) -/

/-- SQ_NONE from the Squares enum. -/
def SQ_NONE : Nat := 64

/-- The Board struct of board.h.  piece is the square-indexed piece array
(0 empty, 1..6 white pawn..king, 7..12 black), byTypeBB the indexed
bitboards, history the ring of Zobrist keys with its write index. -/
structure Board where
  piece : Fin 64 → Nat
  byTypeBB : Fin 2 → Fin 6 → Nat
  byColorBB : Fin 2 → Nat
  whiteToMove : Bool
  castlingRights : Nat
  halfMoveClock : Nat
  fullMoveNumber : Nat
  enPassantSquare : Nat
  zobristKey : Nat
  history : Fin 1000 → Nat
  historyIndex : Nat
deriving DecidableEq

/-- Read of a fixed C array at a Nat index; all modeled accesses are in
range, out-of-range reads return 0. -/
def aget {n : Nat} (f : Fin n → Nat) (i : Nat) : Nat :=
  if h : i < n then f ⟨i, h⟩ else 0

/-- Write of a fixed C array at a Nat index; out-of-range writes are no-ops
(all modeled writes are in range, guarded by the stated hypotheses). -/
def aset {n : Nat} (f : Fin n → Nat) (i : Nat) (v : Nat) : Fin n → Nat :=
  fun j => if (j : Nat) = i then v else f j

/-- Read of byTypeBB[c][t] at Nat indices. -/
def getBB (f : Fin 2 → Fin 6 → Nat) (c t : Nat) : Nat :=
  if hc : c < 2 then (if ht : t < 6 then f ⟨c, hc⟩ ⟨t, ht⟩ else 0) else 0

/-- Write of byTypeBB[c][t] at Nat indices. -/
def setBB (f : Fin 2 → Fin 6 → Nat) (c t v : Nat) : Fin 2 → Fin 6 → Nat :=
  fun c' t' => if (c' : Nat) = c ∧ (t' : Nat) = t then v else f c' t'

/-- Legacy accessor macros of board.h (whitePawns .. blackKings). -/
def Board.whitePawns (b : Board) : Nat := getBB b.byTypeBB 0 0

def Board.whiteKnights (b : Board) : Nat := getBB b.byTypeBB 0 1

def Board.whiteBishops (b : Board) : Nat := getBB b.byTypeBB 0 2

def Board.whiteRooks (b : Board) : Nat := getBB b.byTypeBB 0 3

def Board.whiteQueens (b : Board) : Nat := getBB b.byTypeBB 0 4

def Board.whiteKings (b : Board) : Nat := getBB b.byTypeBB 0 5

def Board.blackPawns (b : Board) : Nat := getBB b.byTypeBB 1 0

def Board.blackKnights (b : Board) : Nat := getBB b.byTypeBB 1 1

def Board.blackBishops (b : Board) : Nat := getBB b.byTypeBB 1 2

def Board.blackRooks (b : Board) : Nat := getBB b.byTypeBB 1 3

def Board.blackQueens (b : Board) : Nat := getBB b.byTypeBB 1 4

def Board.blackKings (b : Board) : Nat := getBB b.byTypeBB 1 5

/-- PIECE_TYPE_OF from board.h: piece code 1..12 to type 0..5.  The C macro
yields -1 on the empty code 0; every modeled call site is guarded by a
hypothesis that the square is occupied. -/
def PIECE_TYPE_OF (p : Nat) : Nat := p - 1 - (if p > 6 then 6 else 0)

/-- PIECE_COLOR_OF from board.h. -/
def PIECE_COLOR_OF (p : Nat) : Nat := if p > 6 then 1 else 0

/-- MAKE_PIECE_NEW from board.h. -/
def MAKE_PIECE_NEW (t c : Nat) : Nat := t + 1 + c * 6

/-- Legacy MAKE_PIECE from board.h (argument is the piece type token 1..6). -/
def MAKE_PIECE (token : Nat) (isWhite : Bool) : Nat := if isWhite then token else token + 6

/-- calculate_zobrist_key from zobrist.c (same code in tt.c): full
recomputation of the hash from the piece bitboards, castling rights,
en-passant square and side to move.  The C guard on the en-passant square,
not SQ_NONE and inside 0..63, reduces to ep smaller than 64 in Nat. -/
def calculate_zobrist_key (b : Board) : Nat :=
  let key := (List.range 64).foldl (fun key sq =>
    if GET_BIT b.whitePawns sq then key ^^^ zobrist_piece_keys 1 0 sq
    else if GET_BIT b.whiteKnights sq then key ^^^ zobrist_piece_keys 2 0 sq
    else if GET_BIT b.whiteBishops sq then key ^^^ zobrist_piece_keys 3 0 sq
    else if GET_BIT b.whiteRooks sq then key ^^^ zobrist_piece_keys 4 0 sq
    else if GET_BIT b.whiteQueens sq then key ^^^ zobrist_piece_keys 5 0 sq
    else if GET_BIT b.whiteKings sq then key ^^^ zobrist_piece_keys 6 0 sq
    else if GET_BIT b.blackPawns sq then key ^^^ zobrist_piece_keys 1 1 sq
    else if GET_BIT b.blackKnights sq then key ^^^ zobrist_piece_keys 2 1 sq
    else if GET_BIT b.blackBishops sq then key ^^^ zobrist_piece_keys 3 1 sq
    else if GET_BIT b.blackRooks sq then key ^^^ zobrist_piece_keys 4 1 sq
    else if GET_BIT b.blackQueens sq then key ^^^ zobrist_piece_keys 5 1 sq
    else if GET_BIT b.blackKings sq then key ^^^ zobrist_piece_keys 6 1 sq
    else key) 0
  let key := key ^^^ zobrist_castling_keys b.castlingRights
  let key :=
    if b.enPassantSquare < 64 then key ^^^ zobrist_enpassant_keys b.enPassantSquare
    else key ^^^ zobrist_enpassant_keys 64
  if !b.whiteToMove then key ^^^ zobrist_side_to_move_key else key

/-! ### Move encoding (move.h) -/

/-- MOVE_FROM. -/
def MOVE_FROM (m : Nat) : Nat := m &&& 63

/-- MOVE_TO. -/
def MOVE_TO (m : Nat) : Nat := (m >>> 6) &&& 63

/-- MOVE_PROMOTION: 0 none, 1 knight, 2 bishop, 3 rook, 4 queen. -/
def MOVE_PROMOTION (m : Nat) : Nat := (m >>> 12) &&& 7

/-- MOVE_IS_CAPTURE as a Bool (C tests the extracted bit for zero). -/
def MOVE_IS_CAPTURE (m : Nat) : Bool := (m >>> 15) &&& 1 ≠ 0

def MOVE_IS_DOUBLE_PAWN_PUSH (m : Nat) : Bool := (m >>> 16) &&& 1 ≠ 0

def MOVE_IS_EN_PASSANT (m : Nat) : Bool := (m >>> 17) &&& 1 ≠ 0

def MOVE_IS_CASTLING (m : Nat) : Bool := (m >>> 18) &&& 1 ≠ 0

def MOVE_IS_PROMOTION (m : Nat) : Bool := MOVE_PROMOTION m ≠ 0

/-- CREATE_MOVE from move.h. -/
def CREATE_MOVE (from_ to_ promotion capture double_push en_passant castling : Nat) : Nat :=
  from_ ||| (to_ <<< 6) ||| (promotion <<< 12) ||| (capture <<< 15) |||
    (double_push <<< 16) ||| (en_passant <<< 17) ||| (castling <<< 18)

/-! ### NNUE evaluator (nnue.c, constants from nnue.h) -/

def NNUE_INPUT_SIZE : Nat := 768

def NNUE_HIDDEN_SIZE : Nat := 1024

def NNUE_INPUT_BUCKETS : Nat := 5

def NNUE_OUTPUT_BUCKETS : Nat := 8

def NNUE_QA : Int := 255

def NNUE_QB : Int := 64

def NNUE_SCALE : Int := 400

/-- NNUE_INPUT_BUCKET_MAP from nnue.c: king square (after the perspective
transform) to input bucket. -/
def NNUE_INPUT_BUCKET_MAP (sq : Nat) : Nat :=
  [0, 0, 1, 1, 1, 1, 0, 0,
   2, 2, 3, 3, 3, 3, 2, 2,
   2, 2, 3, 3, 3, 3, 2, 2,
   4, 4, 4, 4, 4, 4, 4, 4,
   4, 4, 4, 4, 4, 4, 4, 4,
   4, 4, 4, 4, 4, 4, 4, 4,
   4, 4, 4, 4, 4, 4, 4, 4,
   4, 4, 4, 4, 4, 4, 4, 4].getD sq 0

/-- KingBucket struct from nnue.c. -/
structure KingBucket where
  index : Nat
  mirrored : Bool

/-- get_king_bucket from nnue.c. -/
def get_king_bucket (king_square perspective : Nat) : KingBucket :=
  let transformed_sq := if perspective = 1 then king_square ^^^ 56 else king_square
  { index := NNUE_INPUT_BUCKET_MAP transformed_sq, mirrored := transformed_sq % 8 ≥ 4 }

/-- get_feature_index from nnue.c (COLOR_STRIDE 384, PIECE_STRIDE 64,
BUCKET_STRIDE = NNUE_INPUT_SIZE). -/
def get_feature_index (perspective piece_type piece_color square : Nat) (kb : KingBucket) : Nat :=
  let mapped_color := if perspective = 1 then piece_color ^^^ 1 else piece_color
  let transformed_square :=
    if perspective = 1 then (if kb.mirrored then square ^^^ 63 else square ^^^ 56)
    else (if kb.mirrored then square ^^^ 7 else square)
  kb.index * NNUE_INPUT_SIZE + mapped_color * (64 * 6) + piece_type * 64 + transformed_square

/-- NNUEAccumulator from nnue.h: two int16 activation arrays (modeled as Int
valued functions whose entries stay in int16 range through the truncating
stores) and the computed flag. -/
structure NNUEAccumulator where
  white : Fin NNUE_HIDDEN_SIZE → Int
  black : Fin NNUE_HIDDEN_SIZE → Int
  computed : Bool
deriving DecidableEq

/-- NNUENetwork weights from nnue.h (entries are int16 values; the loaded
table is read-only so we leave the functions unconstrained). -/
structure NNUENetwork where
  ft_weights : Nat → Nat → Fin NNUE_HIDDEN_SIZE → Int
  ft_biases : Fin NNUE_HIDDEN_SIZE → Int
  output_weights : Nat → Nat → Int
  output_biases : Nat → Int

/-- nnue_get_output_bucket from nnue.c.  The C computes (piece_count - 2) / 4
in int; with truncation toward zero a count below 2 also yields bucket 0,
matching Nat subtraction, so the Nat formula agrees with the C for every
piece count. -/
def nnue_get_output_bucket (b : Board) : Nat :=
  let piece_count :=
    POPCOUNT b.whitePawns + POPCOUNT b.whiteKnights + POPCOUNT b.whiteBishops +
    POPCOUNT b.whiteRooks + POPCOUNT b.whiteQueens + POPCOUNT b.whiteKings +
    POPCOUNT b.blackPawns + POPCOUNT b.blackKnights + POPCOUNT b.blackBishops +
    POPCOUNT b.blackRooks + POPCOUNT b.blackQueens + POPCOUNT b.blackKings
  let bucket_index := (piece_count - 2) / 4
  if bucket_index ≥ NNUE_OUTPUT_BUCKETS then NNUE_OUTPUT_BUCKETS - 1 else bucket_index

/-- add_piece_features from nnue.c: for every set bit of pieces (ascending,
popping the lowest bit), add the feature column to both perspectives.  Each
int16 store truncates. -/
def add_piece_features (acc : NNUEAccumulator) (net : NNUENetwork)
    (pieces piece_type piece_color : Nat) (white_bucket black_bucket : KingBucket) :
    NNUEAccumulator :=
  bitFold (fun a sq =>
    let white_index := get_feature_index 0 piece_type piece_color sq white_bucket
    let white_bucket_idx := white_index / NNUE_INPUT_SIZE
    let white_input_idx := white_index % NNUE_INPUT_SIZE
    let black_index := get_feature_index 1 piece_type piece_color sq black_bucket
    let black_bucket_idx := black_index / NNUE_INPUT_SIZE
    let black_input_idx := black_index % NNUE_INPUT_SIZE
    { a with
      white := fun i => toInt16 (a.white i + net.ft_weights white_bucket_idx white_input_idx i),
      black := fun i => toInt16 (a.black i + net.ft_weights black_bucket_idx black_input_idx i) })
    pieces acc

/-- nnue_refresh_accumulator from nnue.c.  The C writes the accumulator
through its pointer and never reads the previous contents, so the model
returns the rebuilt accumulator as a function of board and network only. -/
def nnue_refresh_accumulator (b : Board) (net : NNUENetwork) : NNUEAccumulator :=
  let white_king_sq := get_lsb b.whiteKings
  let black_king_sq := get_lsb b.blackKings
  if white_king_sq < 0 ∨ black_king_sq < 0 then
    { white := fun _ => 0, black := fun _ => 0, computed := false }
  else
    let white_bucket := get_king_bucket white_king_sq.toNat 0
    let black_bucket := get_king_bucket black_king_sq.toNat 1
    let a0 : NNUEAccumulator :=
      { white := fun i => net.ft_biases i, black := fun i => net.ft_biases i, computed := false }
    let a1 := add_piece_features a0 net b.whitePawns 0 0 white_bucket black_bucket
    let a2 := add_piece_features a1 net b.whiteKnights 1 0 white_bucket black_bucket
    let a3 := add_piece_features a2 net b.whiteBishops 2 0 white_bucket black_bucket
    let a4 := add_piece_features a3 net b.whiteRooks 3 0 white_bucket black_bucket
    let a5 := add_piece_features a4 net b.whiteQueens 4 0 white_bucket black_bucket
    let a6 := add_piece_features a5 net b.whiteKings 5 0 white_bucket black_bucket
    let a7 := add_piece_features a6 net b.blackPawns 0 1 white_bucket black_bucket
    let a8 := add_piece_features a7 net b.blackKnights 1 1 white_bucket black_bucket
    let a9 := add_piece_features a8 net b.blackBishops 2 1 white_bucket black_bucket
    let a10 := add_piece_features a9 net b.blackRooks 3 1 white_bucket black_bucket
    let a11 := add_piece_features a10 net b.blackQueens 4 1 white_bucket black_bucket
    let a12 := add_piece_features a11 net b.blackKings 5 1 white_bucket black_bucket
    { a12 with computed := true }

/-- The clamp applied per activation in nnue_evaluate: if below 0 take 0, if
above QA take QA. -/
def clampQA (x : Int) : Int := if x < 0 then 0 else if x > NNUE_QA then NNUE_QA else x

/-- nnue_evaluate from nnue.c.  The int64 accumulation cannot overflow for
int16 inputs (each product is at most 255 * 255 * 32767 and there are 2048
of them), so the plain Int sum is its denotation; the two int64 divisions
truncate toward zero (Int.tdiv). -/
def nnue_evaluate (b : Board) (acc : NNUEAccumulator) (net : NNUENetwork) : Int :=
  let acc := if !acc.computed then nnue_refresh_accumulator b net else acc
  let output_bucket := nnue_get_output_bucket b
  let us_acc := if b.whiteToMove then acc.white else acc.black
  let them_acc := if b.whiteToMove then acc.black else acc.white
  let output : Int :=
    (∑ i : Fin NNUE_HIDDEN_SIZE,
      clampQA (us_acc i) * clampQA (us_acc i) * net.output_weights output_bucket (i : Nat)) +
    (∑ i : Fin NNUE_HIDDEN_SIZE,
      clampQA (them_acc i) * clampQA (them_acc i) *
        net.output_weights output_bucket (NNUE_HIDDEN_SIZE + (i : Nat)))
  let output := Int.tdiv output NNUE_QA
  let output := output + net.output_biases output_bucket
  let eval := Int.tdiv (output * NNUE_SCALE) (NNUE_QA * NNUE_QB)
  if b.whiteToMove then eval else -eval

/-- nnue_update_piece_move_with_kings from nnue.c: subtract the from-feature
and add the to-feature of the mover in both perspectives (signs reversed when
apply is false).  King squares are those BEFORE the move, as the caller
guarantees. -/
def nnue_update_piece_move_with_kings (acc : NNUEAccumulator) (net : NNUENetwork)
    (from_sq to_sq piece_type piece_color : Nat) (white_king_sq black_king_sq : Int)
    (apply : Bool) : NNUEAccumulator :=
  if white_king_sq < 0 ∨ black_king_sq < 0 then acc
  else
    let white_bucket := get_king_bucket white_king_sq.toNat 0
    let black_bucket := get_king_bucket black_king_sq.toNat 1
    let white_from_idx := get_feature_index 0 piece_type piece_color from_sq white_bucket
    let white_to_idx := get_feature_index 0 piece_type piece_color to_sq white_bucket
    let black_from_idx := get_feature_index 1 piece_type piece_color from_sq black_bucket
    let black_to_idx := get_feature_index 1 piece_type piece_color to_sq black_bucket
    let wfb := white_from_idx / NNUE_INPUT_SIZE
    let wfi := white_from_idx % NNUE_INPUT_SIZE
    let wtb := white_to_idx / NNUE_INPUT_SIZE
    let wti := white_to_idx % NNUE_INPUT_SIZE
    let bfb := black_from_idx / NNUE_INPUT_SIZE
    let bfi := black_from_idx % NNUE_INPUT_SIZE
    let btb := black_to_idx / NNUE_INPUT_SIZE
    let bti := black_to_idx % NNUE_INPUT_SIZE
    if apply then
      { acc with
        white := fun i =>
          toInt16 (toInt16 (acc.white i - net.ft_weights wfb wfi i) + net.ft_weights wtb wti i),
        black := fun i =>
          toInt16 (toInt16 (acc.black i - net.ft_weights bfb bfi i) + net.ft_weights btb bti i) }
    else
      { acc with
        white := fun i =>
          toInt16 (toInt16 (acc.white i + net.ft_weights wfb wfi i) - net.ft_weights wtb wti i),
        black := fun i =>
          toInt16 (toInt16 (acc.black i + net.ft_weights bfb bfi i) - net.ft_weights btb bti i) }

/-- nnue_update_piece_move from nnue.c: wrapper reading the king squares from
the board; falls back to a full refresh when a king is missing. -/
def nnue_update_piece_move (acc : NNUEAccumulator) (b : Board) (net : NNUENetwork)
    (from_sq to_sq piece_type piece_color : Nat) (apply : Bool) : NNUEAccumulator :=
  let white_king_sq := get_lsb b.whiteKings
  let black_king_sq := get_lsb b.blackKings
  if white_king_sq < 0 ∨ black_king_sq < 0 then nnue_refresh_accumulator b net
  else
    nnue_update_piece_move_with_kings acc net from_sq to_sq piece_type piece_color
      white_king_sq black_king_sq apply

/-- The capture-feature delta shared by nnue_apply_move and nnue_undo_move:
subtract (apply) or add (undo) the captured piece column in both
perspectives; a no-op when a king is missing from the board. -/
def nnue_capture_delta (acc : NNUEAccumulator) (b : Board) (net : NNUENetwork)
    (capture_sq captured_piece_type : Nat) (is_white subtract : Bool) : NNUEAccumulator :=
  let white_king_sq := get_lsb b.whiteKings
  let black_king_sq := get_lsb b.blackKings
  if white_king_sq ≥ 0 ∧ black_king_sq ≥ 0 then
    let white_bucket := get_king_bucket white_king_sq.toNat 0
    let black_bucket := get_king_bucket black_king_sq.toNat 1
    let captured_color := if is_white then 1 else 0
    let white_cap_idx := get_feature_index 0 captured_piece_type captured_color capture_sq white_bucket
    let black_cap_idx := get_feature_index 1 captured_piece_type captured_color capture_sq black_bucket
    let wcb := white_cap_idx / NNUE_INPUT_SIZE
    let wci := white_cap_idx % NNUE_INPUT_SIZE
    let bcb := black_cap_idx / NNUE_INPUT_SIZE
    let bci := black_cap_idx % NNUE_INPUT_SIZE
    if subtract then
      { acc with
        white := fun i => toInt16 (acc.white i - net.ft_weights wcb wci i),
        black := fun i => toInt16 (acc.black i - net.ft_weights bcb bci i) }
    else
      { acc with
        white := fun i => toInt16 (acc.white i + net.ft_weights wcb wci i),
        black := fun i => toInt16 (acc.black i + net.ft_weights bcb bci i) }
  else acc

/-- nnue_apply_move from nnue.c.  captured_piece_type is an NNUE piece index,
-1 meaning no capture; the function is a no-op unless the accumulator was
already computed by a full refresh. -/
def nnue_apply_move (b : Board) (acc : NNUEAccumulator) (net : NNUENetwork)
    (from_sq to_sq piece_type : Nat) (captured_piece_type : Int)
    (is_white is_en_passant : Bool) : NNUEAccumulator :=
  if !acc.computed then acc
  else
    let acc := nnue_update_piece_move acc b net from_sq to_sq piece_type
      (if is_white then 0 else 1) true
    if captured_piece_type ≥ 0 then
      let capture_sq := if is_en_passant then (if is_white then to_sq - 8 else to_sq + 8) else to_sq
      nnue_capture_delta acc b net capture_sq captured_piece_type.toNat is_white true
    else acc

/-- nnue_undo_move from nnue.c: the exact sign-reversed twin of
nnue_apply_move, also a no-op on an uncomputed accumulator. -/
def nnue_undo_move (b : Board) (acc : NNUEAccumulator) (net : NNUENetwork)
    (from_sq to_sq piece_type : Nat) (captured_piece_type : Int)
    (is_white is_en_passant : Bool) : NNUEAccumulator :=
  if !acc.computed then acc
  else
    let acc := nnue_update_piece_move acc b net from_sq to_sq piece_type
      (if is_white then 0 else 1) false
    if captured_piece_type ≥ 0 then
      let capture_sq := if is_en_passant then (if is_white then to_sq - 8 else to_sq + 8) else to_sq
      nnue_capture_delta acc b net capture_sq captured_piece_type.toNat is_white false
    else acc

/-! ### Make and unmake (board_modifiers.c)

The C generates one specialized function per combination of color, piece
type and move flags (APPLY_MOVE_TEMPLATE and UNDO_MOVE_TEMPLATE) and
dispatches through function-pointer tables.  The embedding keeps the single
template body with the compile-time parameters as arguments; the dispatch
functions below select the same parameter combinations the tables do. -/

/-- PROMO_TO_TYPE from board_modifiers.c: table {-1, KNIGHT, BISHOP, ROOK,
QUEEN}; on the guarded domain 1..4 the entry equals its index (the -1 entry
at index 0 is never read). -/
def PROMO_TO_TYPE (promoFlag : Nat) : Nat := promoFlag

/-- MoveUndoInfo from board_modifiers.h. -/
structure MoveUndoInfo where
  capturedPieceType : Nat
  oldEnPassantSquare : Nat
  oldCastlingRights : Nat
  oldHalfMoveClock : Nat
  oldZobristKey : Nat
deriving DecidableEq

/-- Runs an accumulator transformation only when both the accumulator and the
network pointer are non-null, like the WITH_NNUE template parameter chosen by
the dispatch. -/
def withNNUE (netOpt : Option NNUENetwork) (f : NNUEAccumulator → NNUENetwork → NNUEAccumulator)
    (accOpt : Option NNUEAccumulator) : Option NNUEAccumulator :=
  match accOpt, netOpt with
  | some acc, some net => some (f acc net)
  | _, _ => accOpt

/-- APPLY_MOVE_TEMPLATE from board_modifiers.c, with the compile-time
parameters COLOR (us), MOVING_TYPE, IS_CAPTURE, IS_EN_PASSANT, IS_CASTLING,
IS_PROMO as arguments.  Returns the modified board, the undo record and the
updated accumulator. -/
def applyMoveTemplate (us movingType : Nat) (isCap isEP isCastle isPromo : Bool)
    (b : Board) (m : Nat) (accOpt : Option NNUEAccumulator) (netOpt : Option NNUENetwork) :
    Board × MoveUndoInfo × Option NNUEAccumulator :=
  let them := 1 - us
  let from_ := MOVE_FROM m
  let to_ := MOVE_TO m
  let movingPiece := aget b.piece from_
  let movingPieceType := movingType + 1
  let fromTo := bit from_ ||| bit to_
  let toBB := bit to_
  let capturedType : Int :=
    if isCap then (if isEP then 0 else (PIECE_TYPE_OF (aget b.piece to_) : Int)) else -1
  let capturedPieceType : Nat := if isCap then (if isEP then 1 else capturedType.toNat + 1) else 0
  let undo : MoveUndoInfo :=
    { capturedPieceType := capturedPieceType
      oldEnPassantSquare := b.enPassantSquare
      oldCastlingRights := b.castlingRights
      oldHalfMoveClock := b.halfMoveClock
      oldZobristKey := b.zobristKey }
  -- NNUE update before board modification (incremental path only)
  let acc1 := if ¬isCastle ∧ ¬isPromo ∧ movingType ≠ 5 then
      withNNUE netOpt (fun acc net =>
        nnue_apply_move b acc net from_ to_ movingType capturedType (us = 0) isEP) accOpt
    else accOpt
  let z1 := b.zobristKey ^^^ zobrist_piece_keys movingPieceType us from_
  -- captures
  let pbz2 : (Fin 64 → Nat) × (Fin 2 → Fin 6 → Nat) × Nat :=
    if isCap then
      if isEP then
        let capturedSq := if us = 0 then to_ - 8 else to_ + 8
        (aset b.piece capturedSq 0,
         setBB b.byTypeBB them 0 (getBB b.byTypeBB them 0 &&& compl64 (bit capturedSq)),
         z1 ^^^ zobrist_piece_keys 1 them capturedSq)
      else
        (aset b.piece to_ 0,
         setBB b.byTypeBB them capturedType.toNat
           (getBB b.byTypeBB them capturedType.toNat &&& compl64 toBB),
         z1 ^^^ zobrist_piece_keys capturedPieceType them to_)
    else (b.piece, b.byTypeBB, z1)
  let piece2 := pbz2.1
  let bbs2 := pbz2.2.1
  let z2 := pbz2.2.2
  -- move the piece
  let bbs3 := setBB bbs2 us movingType (getBB bbs2 us movingType ^^^ fromTo)
  let piece3 := aset piece2 from_ 0
  -- promotion or regular arrival
  let pbz4 : (Fin 64 → Nat) × (Fin 2 → Fin 6 → Nat) × Nat :=
    if isPromo then
      let promoType := PROMO_TO_TYPE (MOVE_PROMOTION m)
      let promoPiece := MAKE_PIECE_NEW promoType us
      let bbsA := setBB bbs3 us movingType (getBB bbs3 us movingType ^^^ toBB)
      let bbsB := setBB bbsA us promoType (getBB bbsA us promoType ||| toBB)
      (aset piece3 to_ promoPiece, bbsB, z2 ^^^ zobrist_piece_keys (promoType + 1) us to_)
    else
      (aset piece3 to_ movingPiece, bbs3, z2 ^^^ zobrist_piece_keys movingPieceType us to_)
  let piece4 := pbz4.1
  let bbs4 := pbz4.2.1
  let z3 := pbz4.2.2
  -- castling rights update
  let oldCastling := b.castlingRights
  let cr1 := if movingType = 5 then
      oldCastling &&& (if us = 0 then 252 else 243)
    else oldCastling
  let cr2 := if movingType = 3 then
      (if us = 0 then
        (if from_ = 0 then cr1 &&& 253 else if from_ = 7 then cr1 &&& 254 else cr1)
      else
        (if from_ = 56 then cr1 &&& 247 else if from_ = 63 then cr1 &&& 251 else cr1))
    else cr1
  let cr3 := if isCap ∧ capturedType = 3 then
      (if to_ = 0 then cr2 &&& 253 else if to_ = 7 then cr2 &&& 254
       else if to_ = 56 then cr2 &&& 247 else if to_ = 63 then cr2 &&& 251 else cr2)
    else cr2
  let z4 := if oldCastling ≠ cr3 then
      z3 ^^^ zobrist_castling_keys oldCastling ^^^ zobrist_castling_keys cr3
    else z3
  -- castling rook movement (with NNUE refresh on the mid-move board)
  let pbza5 : (Fin 64 → Nat) × (Fin 2 → Fin 6 → Nat) × Nat × Option NNUEAccumulator :=
    if isCastle then
      let rookFrom := if us = 0 then (if to_ = 6 then 7 else 0) else (if to_ = 62 then 63 else 56)
      let rookTo := if us = 0 then (if to_ = 6 then 5 else 3) else (if to_ = 62 then 61 else 59)
      let rookFromTo := bit rookFrom ||| bit rookTo
      let bbsC := setBB bbs4 us 3 (getBB bbs4 us 3 ^^^ rookFromTo)
      let pieceC := aset (aset piece4 rookFrom 0) rookTo (if us = 0 then 4 else 10)
      let zC := z4 ^^^ zobrist_piece_keys 4 us rookFrom ^^^ zobrist_piece_keys 4 us rookTo
      let bMid : Board := { b with piece := pieceC, byTypeBB := bbsC, castlingRights := cr3 }
      (pieceC, bbsC, zC,
        withNNUE netOpt (fun _ net => nnue_refresh_accumulator bMid net) acc1)
    else (piece4, bbs4, z4, acc1)
  let piece5 := pbza5.1
  let bbs5 := pbza5.2.1
  let z5 := pbza5.2.2.1
  let acc5 := pbza5.2.2.2
  -- NNUE refresh for promotions and non-castling king moves
  let bMid2 : Board := { b with piece := piece5, byTypeBB := bbs5, castlingRights := cr3 }
  let acc6 := if isPromo then
      withNNUE netOpt (fun _ net => nnue_refresh_accumulator bMid2 net) acc5
    else acc5
  let acc7 := if movingType = 5 ∧ ¬isCastle then
      withNNUE netOpt (fun _ net => nnue_refresh_accumulator bMid2 net) acc6
    else acc6
  -- en passant square update
  let z6 := if b.enPassantSquare ≠ SQ_NONE then
      z5 ^^^ zobrist_enpassant_keys b.enPassantSquare
    else z5
  let epz7 : Nat × Nat :=
    if movingType = 0 ∧ MOVE_IS_DOUBLE_PAWN_PUSH m then
      let e := if us = 0 then from_ + 8 else from_ - 8
      (e, z6 ^^^ zobrist_enpassant_keys e)
    else (SQ_NONE, z6)
  let ep' := epz7.1
  let z7 := epz7.2
  let halfMove' := if movingType = 0 ∨ isCap then 0 else b.halfMoveClock + 1
  let fullMove' := b.fullMoveNumber + (if us = 1 then 1 else 0)
  let z8 := z7 ^^^ zobrist_side_to_move_key
  let bOut : Board :=
    { piece := piece5
      byTypeBB := bbs5
      byColorBB := b.byColorBB
      whiteToMove := !b.whiteToMove
      castlingRights := cr3
      halfMoveClock := halfMove'
      fullMoveNumber := fullMove'
      enPassantSquare := ep'
      zobristKey := z8
      history := aset b.history b.historyIndex z8
      historyIndex := b.historyIndex + 1 }
  (bOut, undo, acc7)

/-- UNDO_MOVE_TEMPLATE from board_modifiers.c with the compile-time
parameters as arguments.  Returns the restored board and accumulator. -/
def undoMoveTemplate (us movingType : Nat) (isCap isEP isCastle isPromo : Bool)
    (b : Board) (m : Nat) (undo : MoveUndoInfo)
    (accOpt : Option NNUEAccumulator) (netOpt : Option NNUENetwork) :
    Board × Option NNUEAccumulator :=
  let them := 1 - us
  let from_ := MOVE_FROM m
  let to_ := MOVE_TO m
  let fromBB := bit from_
  let toBB := bit to_
  let fromTo := fromBB ||| toBB
  -- undo the piece movement
  let pb2 : (Fin 64 → Nat) × (Fin 2 → Fin 6 → Nat) :=
    if isPromo then
      let promoType := PROMO_TO_TYPE (MOVE_PROMOTION m)
      let bbsA := setBB b.byTypeBB us promoType (getBB b.byTypeBB us promoType &&& compl64 toBB)
      let pieceA := aset b.piece to_ 0
      let bbsB := setBB bbsA us 0 (getBB bbsA us 0 ||| fromBB)
      let pieceB := aset pieceA from_ (if us = 0 then 1 else 7)
      (pieceB, bbsB)
    else
      let currentPiece := aget b.piece to_
      let currentType := PIECE_TYPE_OF currentPiece
      (aset (aset b.piece to_ 0) from_ currentPiece,
       setBB b.byTypeBB us currentType (getBB b.byTypeBB us currentType ^^^ fromTo))
  let piece2 := pb2.1
  let bbs2 := pb2.2
  -- restore the captured piece
  let pb3 : (Fin 64 → Nat) × (Fin 2 → Fin 6 → Nat) :=
    if isCap then
      let capturedTypeTok := undo.capturedPieceType
      let capType := capturedTypeTok - 1
      let capPiece := MAKE_PIECE capturedTypeTok (them = 0)
      if isEP then
        let capturedSq := if us = 0 then to_ - 8 else to_ + 8
        (aset piece2 capturedSq (if them = 0 then 1 else 7),
         setBB bbs2 them 0 (getBB bbs2 them 0 ||| bit capturedSq))
      else
        (aset piece2 to_ capPiece,
         setBB bbs2 them capType (getBB bbs2 them capType ||| toBB))
    else (piece2, bbs2)
  let piece3 := pb3.1
  let bbs3 := pb3.2
  -- revert the castling rook move
  let pb4 : (Fin 64 → Nat) × (Fin 2 → Fin 6 → Nat) :=
    if isCastle then
      let rookFrom := if us = 0 then (if to_ = 6 then 7 else 0) else (if to_ = 62 then 63 else 56)
      let rookTo := if us = 0 then (if to_ = 6 then 5 else 3) else (if to_ = 62 then 61 else 59)
      let rookFromTo := bit rookFrom ||| bit rookTo
      (aset (aset piece3 rookTo 0) rookFrom (if us = 0 then 4 else 10),
       setBB bbs3 us 3 (getBB bbs3 us 3 ^^^ rookFromTo))
    else (piece3, bbs3)
  let piece4 := pb4.1
  let bbs4 := pb4.2
  -- the board as the C sees it when the NNUE branch runs: everything
  -- restored except the Zobrist key, which is written afterwards
  let bRest : Board :=
    { piece := piece4
      byTypeBB := bbs4
      byColorBB := b.byColorBB
      whiteToMove := !b.whiteToMove
      castlingRights := undo.oldCastlingRights
      halfMoveClock := undo.oldHalfMoveClock
      fullMoveNumber := if us = 1 then b.fullMoveNumber - 1 else b.fullMoveNumber
      enPassantSquare := undo.oldEnPassantSquare
      zobristKey := b.zobristKey
      history := b.history
      historyIndex := b.historyIndex - 1 }
  let acc' := if isCastle then
      withNNUE netOpt (fun _ net => nnue_refresh_accumulator bRest net) accOpt
    else if isPromo then
      withNNUE netOpt (fun _ net => nnue_refresh_accumulator bRest net) accOpt
    else if movingType = 5 then
      withNNUE netOpt (fun _ net => nnue_refresh_accumulator bRest net) accOpt
    else
      withNNUE netOpt (fun acc net =>
        nnue_undo_move bRest acc net from_ to_ movingType
          (if isCap then (undo.capturedPieceType : Int) - 1 else -1) (us = 0) isEP) accOpt
  ({ bRest with zobristKey := undo.oldZobristKey }, acc')

/-- applyMove from board_modifiers.c: computes color, piece type and move
flags once, then runs the specialized template the dispatch tables select
(en passant wins over promotion for pawns, castling over capture for kings;
regular pieces only dispatch on the capture flag). -/
def applyMove (b : Board) (m : Nat) (accOpt : Option NNUEAccumulator)
    (netOpt : Option NNUENetwork) : Board × MoveUndoInfo × Option NNUEAccumulator :=
  let us := if b.whiteToMove then 0 else 1
  let movingType := PIECE_TYPE_OF (aget b.piece (MOVE_FROM m))
  let isCapture := MOVE_IS_CAPTURE m
  let isEnPassant := MOVE_IS_EN_PASSANT m
  let isCastling := MOVE_IS_CASTLING m
  let isPromo := MOVE_PROMOTION m ≠ 0
  if movingType = 0 then
    if isEnPassant then applyMoveTemplate us 0 true true false false b m accOpt netOpt
    else if isPromo then applyMoveTemplate us 0 isCapture false false true b m accOpt netOpt
    else applyMoveTemplate us 0 isCapture false false false b m accOpt netOpt
  else if movingType = 5 then
    if isCastling then applyMoveTemplate us 5 false false true false b m accOpt netOpt
    else applyMoveTemplate us 5 isCapture false false false b m accOpt netOpt
  else applyMoveTemplate us movingType isCapture false false false b m accOpt netOpt

/-- undoMove from board_modifiers.c: the original mover is the side not to
move; for promotions the moved piece was a pawn, otherwise its type is read
from the destination square. -/
def undoMove (b : Board) (m : Nat) (undo : MoveUndoInfo) (accOpt : Option NNUEAccumulator)
    (netOpt : Option NNUENetwork) : Board × Option NNUEAccumulator :=
  let us := if b.whiteToMove then 1 else 0
  let isPromo := MOVE_PROMOTION m ≠ 0
  let isCapture := MOVE_IS_CAPTURE m
  let isEnPassant := MOVE_IS_EN_PASSANT m
  let isCastling := MOVE_IS_CASTLING m
  let movingType := if isPromo then 0 else PIECE_TYPE_OF (aget b.piece (MOVE_TO m))
  if movingType = 0 then
    if isEnPassant then undoMoveTemplate us 0 true true false false b m undo accOpt netOpt
    else if isPromo then undoMoveTemplate us 0 isCapture false false true b m undo accOpt netOpt
    else undoMoveTemplate us 0 isCapture false false false b m undo accOpt netOpt
  else if movingType = 5 then
    if isCastling then undoMoveTemplate us 5 false false true false b m undo accOpt netOpt
    else undoMoveTemplate us 5 isCapture false false false b m undo accOpt netOpt
  else undoMoveTemplate us movingType isCapture false false false b m undo accOpt netOpt

/-! ### Move list (move.h) -/

def MAX_MOVES : Nat := 256

/-- MoveList from move.h: a 256-entry move array and a count. -/
structure MoveList where
  moves : Fin 256 → Nat
  count : Nat
deriving DecidableEq

/-- addMove from move.h: append only while the list has room. -/
def addMove (list : MoveList) (move : Nat) : MoveList :=
  if list.count < MAX_MOVES then
    { moves := aset list.moves list.count move, count := list.count + 1 }
  else list

/-! ### Attack tables and move generation (move_generator.c, src/src copy)

The pawn, knight and king tables are precomputed by loops at startup; the
definitions below compute the same masks directly.  The rook and bishop
lookups go through magic tables whose construction is verified at startup to
reproduce the on-the-fly ray scan on every subset of the relevant-occupancy
mask; their denotation is therefore the ray scan applied to the masked
occupancy, which is how getRookAttacks and getBishopAttacks are modeled. -/

/-- PAWN_ATTACKS from initMoveGenerator (color 0 white, 1 black). -/
def PAWN_ATTACKS (color sq : Nat) : Nat :=
  let r := sq / 8
  let f := sq % 8
  if color = 0 then
    (if r < 7 ∧ f > 0 then bit (sq + 7) else 0) ||| (if r < 7 ∧ f < 7 then bit (sq + 9) else 0)
  else
    (if r > 0 ∧ f > 0 then bit (sq - 9) else 0) ||| (if r > 0 ∧ f < 7 then bit (sq - 7) else 0)

/-- The eight knight move deltas of initMoveGenerator. -/
def knightDeltas : List (Int × Int) :=
  [(-2, -1), (-2, 1), (-1, -2), (-1, 2), (1, -2), (1, 2), (2, -1), (2, 1)]

/-- The eight king move deltas of initMoveGenerator. -/
def kingDeltas : List (Int × Int) :=
  [(-1, -1), (-1, 0), (-1, 1), (0, -1), (0, 1), (1, -1), (1, 0), (1, 1)]

/-- KNIGHT_ATTACKS from initMoveGenerator. -/
def KNIGHT_ATTACKS (sq : Nat) : Nat :=
  let r : Int := (sq / 8 : Nat)
  let f : Int := (sq % 8 : Nat)
  knightDeltas.foldl (fun acc d =>
    let nr := r + d.1
    let nc := f + d.2
    if 0 ≤ nr ∧ nr < 8 ∧ 0 ≤ nc ∧ nc < 8 then acc ||| bit (nr * 8 + nc).toNat else acc) 0

/-- KING_ATTACKS from initMoveGenerator. -/
def KING_ATTACKS (sq : Nat) : Nat :=
  let r : Int := (sq / 8 : Nat)
  let f : Int := (sq % 8 : Nat)
  kingDeltas.foldl (fun acc d =>
    let nr := r + d.1
    let nc := f + d.2
    if 0 ≤ nr ∧ nr < 8 ∧ 0 ≤ nc ∧ nc < 8 then acc ||| bit (nr * 8 + nc).toNat else acc) 0

/-- One ray of the on-the-fly slider scan: add each square until (and
including) the first blocker. -/
def rayAccum (squares : List Nat) (blockers : Nat) : Nat :=
  match squares with
  | [] => 0
  | s :: rest => if blockers.testBit s then bit s else bit s ||| rayAccum rest blockers

/-- generate_rook_attacks_otf_user from move_generator.c. -/
def generate_rook_attacks_otf (sq blockers : Nat) : Nat :=
  let rk := sq / 8
  let fl := sq % 8
  rayAccum ((List.range (7 - rk)).map (fun i => fl + (rk + 1 + i) * 8)) blockers |||
  rayAccum ((List.range rk).map (fun i => fl + (rk - 1 - i) * 8)) blockers |||
  rayAccum ((List.range (7 - fl)).map (fun i => (fl + 1 + i) + rk * 8)) blockers |||
  rayAccum ((List.range fl).map (fun i => (fl - 1 - i) + rk * 8)) blockers

/-- generate_bishop_attacks_otf_user from move_generator.c. -/
def generate_bishop_attacks_otf (sq blockers : Nat) : Nat :=
  let rk := sq / 8
  let fl := sq % 8
  rayAccum ((List.range (min (7 - rk) (7 - fl))).map
    (fun i => (fl + 1 + i) + (rk + 1 + i) * 8)) blockers |||
  rayAccum ((List.range (min (7 - rk) fl)).map
    (fun i => (fl - 1 - i) + (rk + 1 + i) * 8)) blockers |||
  rayAccum ((List.range (min rk (7 - fl))).map
    (fun i => (fl + 1 + i) + (rk - 1 - i) * 8)) blockers |||
  rayAccum ((List.range (min rk fl)).map
    (fun i => (fl - 1 - i) + (rk - 1 - i) * 8)) blockers

/-- generate_rook_mask_user from move_generator.c (inner ray squares). -/
def ROOK_MASKS (sq : Nat) : Nat :=
  let rk := sq / 8
  let fl := sq % 8
  ((List.range (6 - rk)).map (fun i => fl + (rk + 1 + i) * 8)).foldl (fun a s => a ||| bit s) 0 |||
  ((List.range (rk - 1)).map (fun i => fl + (rk - 1 - i) * 8)).foldl (fun a s => a ||| bit s) 0 |||
  ((List.range (6 - fl)).map (fun i => (fl + 1 + i) + rk * 8)).foldl (fun a s => a ||| bit s) 0 |||
  ((List.range (fl - 1)).map (fun i => (fl - 1 - i) + rk * 8)).foldl (fun a s => a ||| bit s) 0

/-- generate_bishop_mask_user from move_generator.c. -/
def BISHOP_MASKS (sq : Nat) : Nat :=
  let rk := sq / 8
  let fl := sq % 8
  ((List.range (min (6 - rk) (6 - fl))).map
    (fun i => (fl + 1 + i) + (rk + 1 + i) * 8)).foldl (fun a s => a ||| bit s) 0 |||
  ((List.range (min (6 - rk) (fl - 1))).map
    (fun i => (fl - 1 - i) + (rk + 1 + i) * 8)).foldl (fun a s => a ||| bit s) 0 |||
  ((List.range (min (rk - 1) (6 - fl))).map
    (fun i => (fl + 1 + i) + (rk - 1 - i) * 8)).foldl (fun a s => a ||| bit s) 0 |||
  ((List.range (min (rk - 1) (fl - 1))).map
    (fun i => (fl - 1 - i) + (rk - 1 - i) * 8)).foldl (fun a s => a ||| bit s) 0

/-- getRookAttacks from move_generator.c: the magic-table lookup, whose
verified-at-construction value is the on-the-fly scan of the occupancy
restricted to the relevant mask. -/
def getRookAttacks (square occupancy : Nat) : Nat :=
  generate_rook_attacks_otf square (occupancy &&& ROOK_MASKS square)

/-- getBishopAttacks from move_generator.c, same denotation as the rook. -/
def getBishopAttacks (square occupancy : Nat) : Nat :=
  generate_bishop_attacks_otf square (occupancy &&& BISHOP_MASKS square)

/-- getQueenAttacks from move_generator.c. -/
def getQueenAttacks (square occupancy : Nat) : Nat :=
  getRookAttacks square occupancy ||| getBishopAttacks square occupancy

/-- getOccupiedByColor from move_generator.c. -/
def getOccupiedByColor (b : Board) (isWhite : Bool) : Nat :=
  let c : Nat := if isWhite then 0 else 1
  getBB b.byTypeBB c 0 ||| getBB b.byTypeBB c 1 ||| getBB b.byTypeBB c 2 |||
  getBB b.byTypeBB c 3 ||| getBB b.byTypeBB c 4 ||| getBB b.byTypeBB c 5

/-- isSquareAttacked from move_generator.c: is sq attacked by the given side. -/
def isSquareAttacked (b : Board) (sq : Nat) (byWhite : Bool) : Bool :=
  let allPieces := getOccupiedByColor b true ||| getOccupiedByColor b false
  if byWhite then
    PAWN_ATTACKS 1 sq &&& b.whitePawns ≠ 0 ∨
    KNIGHT_ATTACKS sq &&& b.whiteKnights ≠ 0 ∨
    KING_ATTACKS sq &&& b.whiteKings ≠ 0 ∨
    getRookAttacks sq allPieces &&& (b.whiteRooks ||| b.whiteQueens) ≠ 0 ∨
    getBishopAttacks sq allPieces &&& (b.whiteBishops ||| b.whiteQueens) ≠ 0
  else
    PAWN_ATTACKS 0 sq &&& b.blackPawns ≠ 0 ∨
    KNIGHT_ATTACKS sq &&& b.blackKnights ≠ 0 ∨
    KING_ATTACKS sq &&& b.blackKings ≠ 0 ∨
    getRookAttacks sq allPieces &&& (b.blackRooks ||| b.blackQueens) ≠ 0 ∨
    getBishopAttacks sq allPieces &&& (b.blackBishops ||| b.blackQueens) ≠ 0

/-- isKingAttacked from move_generator.c (kingColor true means the white
king). -/
def isKingAttacked (b : Board) (kingColor : Bool) : Bool :=
  let kingPosBitboard := if kingColor then b.whiteKings else b.blackKings
  let kingSq := get_lsb_index kingPosBitboard
  if kingSq = SQ_NONE then false
  else isSquareAttacked b kingSq (!kingColor)

/-- generatePawnMoves from move_generator.c. -/
def generatePawnMoves (b : Board) (list : MoveList) (isWhite : Bool) : MoveList :=
  let pawns := if isWhite then b.whitePawns else b.blackPawns
  let friendlyPieces := getOccupiedByColor b isWhite
  let enemyPieces := getOccupiedByColor b (!isWhite)
  let allPieces := friendlyPieces ||| enemyPieces
  let direction : Int := if isWhite then 1 else -1
  let startRank : Int := if isWhite then 1 else 6
  let promotionRank : Int := if isWhite then 7 else 0
  bitFold (fun l fromSq =>
    let rank : Int := (fromSq / 8 : Nat)
    let toSq_single : Int := (fromSq : Int) + 8 * direction
    let l :=
      if 0 ≤ toSq_single ∧ toSq_single < 64 ∧ ¬ GET_BIT allPieces toSq_single.toNat then
        let l :=
          if rank + direction = promotionRank then
            addMove (addMove (addMove (addMove l
              (CREATE_MOVE fromSq toSq_single.toNat 4 0 0 0 0))
              (CREATE_MOVE fromSq toSq_single.toNat 3 0 0 0 0))
              (CREATE_MOVE fromSq toSq_single.toNat 2 0 0 0 0))
              (CREATE_MOVE fromSq toSq_single.toNat 1 0 0 0 0)
          else addMove l (CREATE_MOVE fromSq toSq_single.toNat 0 0 0 0 0)
        if rank = startRank then
          let toSq_double : Int := (fromSq : Int) + 16 * direction
          if 0 ≤ toSq_double ∧ toSq_double < 64 ∧ ¬ GET_BIT allPieces toSq_double.toNat then
            addMove l (CREATE_MOVE fromSq toSq_double.toNat 0 0 1 0 0)
          else l
        else l
      else l
    let pawnAttacks := PAWN_ATTACKS (if isWhite then 0 else 1) fromSq
    let l := bitFold (fun l toSq_capture =>
        if rank + direction = promotionRank then
          addMove (addMove (addMove (addMove l
            (CREATE_MOVE fromSq toSq_capture 4 1 0 0 0))
            (CREATE_MOVE fromSq toSq_capture 3 1 0 0 0))
            (CREATE_MOVE fromSq toSq_capture 2 1 0 0 0))
            (CREATE_MOVE fromSq toSq_capture 1 1 0 0 0)
        else addMove l (CREATE_MOVE fromSq toSq_capture 0 1 0 0 0))
      (pawnAttacks &&& enemyPieces) l
    if b.enPassantSquare ≠ SQ_NONE ∧ GET_BIT pawnAttacks b.enPassantSquare then
      addMove l (CREATE_MOVE fromSq b.enPassantSquare 0 1 0 1 0)
    else l) pawns list

/-- generatePieceMoves from move_generator.c (knight and king table moves). -/
def generatePieceMoves (b : Board) (list : MoveList) (isWhite : Bool)
    (pieces : Nat) (attackTable : Nat → Nat) : MoveList :=
  let friendlyPieces := getOccupiedByColor b isWhite
  let enemyPieces := getOccupiedByColor b (!isWhite)
  bitFold (fun l fromSq =>
    bitFold (fun l toSq =>
        addMove l (CREATE_MOVE fromSq toSq 0 (if GET_BIT enemyPieces toSq then 1 else 0) 0 0 0))
      (attackTable fromSq &&& compl64 friendlyPieces) l) pieces list

/-- generateSlidingPieceMoves from move_generator.c (pieceType is the token
BISHOP_T 3, ROOK_T 4 or QUEEN_T 5). -/
def generateSlidingPieceMoves (b : Board) (list : MoveList) (isWhite : Bool)
    (pieces : Nat) (pieceType : Nat) : MoveList :=
  let friendlyPieces := getOccupiedByColor b isWhite
  let enemyPieces := getOccupiedByColor b (!isWhite)
  let allPieces := friendlyPieces ||| enemyPieces
  bitFold (fun l fromSq =>
    let attacks :=
      if pieceType = 4 then getRookAttacks fromSq allPieces
      else if pieceType = 3 then getBishopAttacks fromSq allPieces
      else getQueenAttacks fromSq allPieces
    bitFold (fun l toSq =>
        addMove l (CREATE_MOVE fromSq toSq 0 (if GET_BIT enemyPieces toSq then 1 else 0) 0 0 0))
      (attacks &&& compl64 friendlyPieces) l) pieces list

/-- generateCastlingMoves from move_generator.c. -/
def generateCastlingMoves (b : Board) (list : MoveList) (isWhite : Bool) : MoveList :=
  let occupied :=
    b.whitePawns ||| b.whiteKnights ||| b.whiteBishops ||| b.whiteRooks ||| b.whiteQueens |||
    b.whiteKings ||| b.blackPawns ||| b.blackKnights ||| b.blackBishops ||| b.blackRooks |||
    b.blackQueens ||| b.blackKings
  if isWhite then
    let l := if b.castlingRights &&& 1 ≠ 0 ∧ occupied &&& (bit 5 ||| bit 6) = 0 ∧
        ¬ isSquareAttacked b 4 false ∧ ¬ isSquareAttacked b 5 false ∧
        ¬ isSquareAttacked b 6 false then
        addMove list (CREATE_MOVE 4 6 0 0 0 0 1)
      else list
    if b.castlingRights &&& 2 ≠ 0 ∧ occupied &&& (bit 3 ||| bit 2 ||| bit 1) = 0 ∧
        ¬ isSquareAttacked b 4 false ∧ ¬ isSquareAttacked b 3 false ∧
        ¬ isSquareAttacked b 2 false then
      addMove l (CREATE_MOVE 4 2 0 0 0 0 1)
    else l
  else
    let l := if b.castlingRights &&& 4 ≠ 0 ∧ occupied &&& (bit 61 ||| bit 62) = 0 ∧
        ¬ isSquareAttacked b 60 true ∧ ¬ isSquareAttacked b 61 true ∧
        ¬ isSquareAttacked b 62 true then
        addMove list (CREATE_MOVE 60 62 0 0 0 0 1)
      else list
    if b.castlingRights &&& 8 ≠ 0 ∧ occupied &&& (bit 59 ||| bit 58 ||| bit 57) = 0 ∧
        ¬ isSquareAttacked b 60 true ∧ ¬ isSquareAttacked b 59 true ∧
        ¬ isSquareAttacked b 58 true then
      addMove l (CREATE_MOVE 60 58 0 0 0 0 1)
    else l

/-- generateMoves from move_generator.c (src/src copy): all pseudo-legal
moves, no legality filtering (the comment in the source defers legality to
search and perft). -/
def generateMoves (b : Board) : MoveList :=
  let list : MoveList := { moves := fun _ => 0, count := 0 }
  let isWhite := b.whiteToMove
  let list := generatePawnMoves b list isWhite
  let list := generatePieceMoves b list isWhite
    (if isWhite then b.whiteKnights else b.blackKnights) KNIGHT_ATTACKS
  let list := generatePieceMoves b list isWhite
    (if isWhite then b.whiteKings else b.blackKings) KING_ATTACKS
  let list := generateSlidingPieceMoves b list isWhite
    (if isWhite then b.whiteBishops else b.blackBishops) 3
  let list := generateSlidingPieceMoves b list isWhite
    (if isWhite then b.whiteRooks else b.blackRooks) 4
  let list := generateSlidingPieceMoves b list isWhite
    (if isWhite then b.whiteQueens else b.blackQueens) 5
  generateCastlingMoves b list isWhite

/-! ### Transposition table (tt.c, src/src copy; entry layout from tt.h) -/

def TT_EXACT : Nat := 0

def TT_LOWERBOUND : Nat := 1

def TT_UPPERBOUND : Nat := 2

/-- TTEntry from tt.h.  score holds an int16 value and depth an int8 value;
tt_store truncates on write, so the fields always carry their C range. -/
structure TTEntry where
  key16 : Nat
  bestMove : Nat
  score : Int
  depth : Int
  flag_age : Nat
deriving DecidableEq

def TT_GET_FLAG (e : TTEntry) : Nat := e.flag_age &&& 3

def TT_GET_AGE (e : TTEntry) : Nat := e.flag_age >>> 2

def TT_MAKE_FLAG_AGE (flag age : Nat) : Nat := (age <<< 2) ||| (flag &&& 3)

/-- The transposition-table module state: entry count, entry array and the
global age counter tt_age. -/
structure TTState where
  size : Nat
  table : Nat → TTEntry
  age : Nat

/-- tt_new_search from tt.c: increment the 8-bit age, reset past 63. -/
def tt_new_search (st : TTState) : TTState :=
  let a := (st.age + 1) % 256
  { st with age := if a > 63 then 0 else a }

/-- The replacement decision of tt_store, verbatim from tt.c: empty slot,
same-key update rule, then the different-key rules in order (age difference,
depth tolerance, upper-bound eviction).  The C age difference
(tt_age - entry_age) masked to 6 bits equals the modular form below for the
0..63 values both counters carry. -/
def tt_should_replace (entry : TTEntry) (key16 tt_age : Nat) (depth : Int) (flag : Nat) : Bool :=
  if entry.key16 = 0 ∧ entry.bestMove = 0 then true
  else if entry.key16 = key16 then
    decide (depth ≥ entry.depth ∨
      (depth = entry.depth - 1 ∧ flag = TT_EXACT ∧ TT_GET_FLAG entry ≠ TT_EXACT))
  else
    let age_diff := (tt_age + 64 - TT_GET_AGE entry) % 64
    if age_diff ≥ 2 then true
    else if depth ≥ entry.depth - 2 then true
    else if TT_GET_FLAG entry = TT_UPPERBOUND ∧ flag ≠ TT_UPPERBOUND then true
    else false

/-- tt_store from tt.c (src/src copy). -/
def tt_store (st : TTState) (key : Nat) (depth score : Int) (flag : Nat) (best_move : Nat) :
    TTState :=
  if st.size = 0 then st
  else
    let index := key % st.size
    let entry := st.table index
    let key16 := key >>> 48
    if tt_should_replace entry key16 st.age depth flag then
      { st with table := fun j =>
          if j = index then
            { key16 := key16
              bestMove := best_move
              score := toInt16 score
              depth := toInt8 depth
              flag_age := TT_MAKE_FLAG_AGE flag st.age }
          else st.table j }
    else st

/-- tt_probe from tt.c (src/src copy): return the slot entry only when the
stored verification tag matches the upper 16 bits of the key. -/
def tt_probe (st : TTState) (key : Nat) : Option TTEntry :=
  if st.size = 0 then none
  else
    let entry := st.table (key % st.size)
    if entry.key16 = key >>> 48 then some entry else none

/-! ### Search fragments (search.c) -/

def MATE_SCORE : Int := 1000000

/-- The mate-score adjustment negamax applies to alpha before tt_store
(search.c, TT store at the node epilogue). -/
def negamax_store_score_adjust (score ply : Int) : Int :=
  if score > MATE_SCORE - 100 then score + ply
  else if score < -MATE_SCORE + 100 then score - ply
  else score

/-- The mate-score adjustment negamax and quiescence apply to a probed entry
score (search.c, TT probe in the node prologue). -/
def negamax_probe_score_adjust (tt_score ply : Int) : Int :=
  if tt_score > MATE_SCORE - 100 then tt_score - ply
  else if tt_score < -MATE_SCORE + 100 then tt_score + ply
  else tt_score

/-- is_draw from search.c: halfmove clock at 100, or, away from the root, the
current Zobrist key found at least twice in history[0..historyIndex) (the C
loop counts matches and returns as soon as the count reaches 2). -/
def is_draw (b : Board) (ply : Nat) : Bool :=
  if b.halfMoveClock ≥ 100 then true
  else if ply > 0 then
    decide (2 ≤ ((List.range b.historyIndex).filter
      (fun i => aget b.history i = b.zobristKey)).length)
  else false

/-- The move loop of negamax (search.c, main loop over ordered moves), with
the recursive search abstracted by childScore: the PVS null-window search,
the LMR re-search and the full-window re-search all return the value of the
same deterministic child, so the score of move mv searched from board b is
childScore of the applied board.  State: board, remaining ordered moves,
alpha, best move, moves_searched.  The only skip between taking a move from
the list and using its score is the futility skip; notably there is no
legality check between applyMove and the use of the child score. -/
def negamaxMoveLoop (futility_pruning : Bool) (beta : Int) (childScore : Board → Nat → Int)
    (accOpt : Option NNUEAccumulator) (netOpt : Option NNUENetwork) :
    Board → List Nat → Int → Nat → Nat → Board × Int × Nat
  | b, [], alpha, best, _ => (b, alpha, best)
  | b, mv :: rest, alpha, best, moves_searched =>
    let is_tactical := MOVE_IS_CAPTURE mv || MOVE_IS_PROMOTION mv
    if futility_pruning ∧ moves_searched > 0 ∧ ¬ is_tactical then
      negamaxMoveLoop futility_pruning beta childScore accOpt netOpt b rest alpha best
        moves_searched
    else
      let applied := applyMove b mv accOpt netOpt
      let score := childScore applied.1 mv
      let undone := undoMove applied.1 mv applied.2.1 applied.2.2 netOpt
      let ab := if score > alpha then (score, mv) else (alpha, best)
      if ab.1 ≥ beta then (undone.1, ab.1, ab.2)
      else negamaxMoveLoop futility_pruning beta childScore undone.2 netOpt undone.1 rest ab.1
        ab.2 (moves_searched + 1)

/-! ### Claim C9: addMove bounds -/

/-- C9: addMove appends the move at index count and increments count only
while count is below MAX_MOVES (256); with a full list the call leaves the
list unchanged, no entry other than index count is ever written, and the
count never exceeds 256. -/
theorem C9_addMove_bounds (l : MoveList) (mv : Nat) :
    (l.count < 256 →
      addMove l mv = { moves := aset l.moves l.count mv, count := l.count + 1 }) ∧
    (256 ≤ l.count → addMove l mv = l) ∧
    (∀ i : Fin 256, (i : Nat) ≠ l.count → (addMove l mv).moves i = l.moves i) ∧
    (l.count ≤ 256 → (addMove l mv).count ≤ 256) := by
  unfold addMove MAX_MOVES
  by_cases h : l.count < 256
  · refine ⟨fun _ => by simp [h], fun h2 => absurd h (by omega), fun i hi => ?_, fun _ => ?_⟩
    · simp [h, aset, hi]
    · simp [h]
      omega
  · refine ⟨fun h1 => absurd h1 h, fun _ => by simp [h], fun i _ => by simp [h], fun h2 => ?_⟩
    simp [h]
    omega

def c9List : MoveList := { moves := fun _ => 0, count := 0 }

/-- Witness for C9 at a concrete empty list. -/
theorem C9_addMove_bounds_witness :
    addMove c9List 7 = { moves := aset c9List.moves c9List.count 7, count := c9List.count + 1 } :=
  (C9_addMove_bounds c9List 7).1 (by norm_num [c9List])

/-! ### Claim C10: uncomputed accumulators are never delta-updated -/

/-- C10: when the accumulator's computed flag is false, nnue_apply_move and
nnue_undo_move return it unchanged (activations and flag); incremental
deltas therefore only ever touch an accumulator previously filled by a full
refresh, which is the only operation that sets the flag. -/
theorem C10_nnue_uncomputed_frame (b : Board) (acc : NNUEAccumulator) (net : NNUENetwork)
    (from_sq to_sq piece_type : Nat) (captured : Int) (is_white is_ep : Bool)
    (h : acc.computed = false) :
    nnue_apply_move b acc net from_sq to_sq piece_type captured is_white is_ep = acc ∧
    nnue_undo_move b acc net from_sq to_sq piece_type captured is_white is_ep = acc := by
  unfold nnue_apply_move nnue_undo_move
  simp [h]

def c10Board : Board :=
  { piece := fun _ => 0, byTypeBB := fun _ _ => 0, byColorBB := fun _ => 0,
    whiteToMove := true, castlingRights := 0, halfMoveClock := 0, fullMoveNumber := 1,
    enPassantSquare := 64, zobristKey := 0, history := fun _ => 0, historyIndex := 0 }

def c10Acc : NNUEAccumulator := { white := fun _ => 0, black := fun _ => 0, computed := false }

def c10Net : NNUENetwork :=
  { ft_weights := fun _ _ _ => 0, ft_biases := fun _ => 0,
    output_weights := fun _ _ => 0, output_biases := fun _ => 0 }

/-- Witness for C10 at a concrete uncomputed accumulator. -/
theorem C10_nnue_uncomputed_frame_witness :
    nnue_apply_move c10Board c10Acc c10Net 1 2 0 (-1) true false = c10Acc ∧
    nnue_undo_move c10Board c10Acc c10Net 1 2 0 (-1) true false = c10Acc :=
  C10_nnue_uncomputed_frame c10Board c10Acc c10Net 1 2 0 (-1) true false rfl

/-! ### Claim C6: same-key replacement rule -/

/-- C6 (amended): with a same-key nonempty occupant, tt_store replaces
exactly when the new depth is at least the old, or when an Exact value
arrives with depth exactly one below the old depth and the occupant is not
Exact.  The unconditional bound-to-Exact upgrade stated in the spec does not
exist in the code. -/
theorem C6_same_key_replacement (entry : TTEntry) (key16 tt_age : Nat) (depth : Int)
    (flag : Nat) (hnonempty : ¬(entry.key16 = 0 ∧ entry.bestMove = 0))
    (hsame : entry.key16 = key16) :
    tt_should_replace entry key16 tt_age depth flag = true ↔
      (entry.depth ≤ depth ∨
        (depth = entry.depth - 1 ∧ flag = TT_EXACT ∧ TT_GET_FLAG entry ≠ TT_EXACT)) := by
  unfold tt_should_replace
  rw [if_neg hnonempty, if_pos hsame]
  simp [ge_iff_le]

/-- Counterexample for C6 as stated: an Upper-bound occupant of depth 5 is
NOT replaced by an Exact store of depth 2, although the claim's
upgrade-to-Exact rule demands replacement. -/
theorem C6_counterexample :
    tt_should_replace ⟨5, 1, 0, 5, TT_MAKE_FLAG_AGE TT_UPPERBOUND 0⟩ 5 0 2 TT_EXACT = false ∧
    TT_GET_FLAG ⟨5, 1, 0, 5, TT_MAKE_FLAG_AGE TT_UPPERBOUND 0⟩ = TT_UPPERBOUND := by
  constructor
  · decide
  · decide

/-- Witness for C6 at a concrete same-key entry (depth 4 store over depth 3). -/
theorem C6_same_key_replacement_witness :
    tt_should_replace ⟨5, 0, 0, 3, 0⟩ 5 0 4 0 = true :=
  (C6_same_key_replacement ⟨5, 0, 0, 3, 0⟩ 5 0 4 0 (by decide) rfl).mpr
    (Or.inl (by norm_num))

/-! ### Claim C5: store then probe -/

/-- C5 (amended): after tt_store of an Exact entry whose score fits int16,
tt_probe returns that score and move PROVIDED the replacement policy accepts
the new entry for its slot (always the case for an empty slot or a same-key
occupant of no greater depth); a different-key occupant that is deeper,
current-aged and not an Upper bound is kept, and the probe then misses. -/
theorem C5_store_probe (st : TTState) (key : Nat) (depth score : Int) (mv : Nat)
    (hsize : 0 < st.size) (hs1 : -32768 ≤ score) (hs2 : score < 32768)
    (hrep : tt_should_replace (st.table (key % st.size)) (key >>> 48) st.age depth
      TT_EXACT = true) :
    tt_probe (tt_store st key depth score TT_EXACT mv) key =
      some { key16 := key >>> 48, bestMove := mv, score := score,
             depth := toInt8 depth, flag_age := TT_MAKE_FLAG_AGE TT_EXACT st.age } := by
  have hs0 : st.size ≠ 0 := by omega
  unfold tt_store tt_probe
  simp [hs0, hrep, toInt16_eq_self hs1 hs2]

def c5Occupied : TTEntry := ⟨7, 1, 0, 10, TT_MAKE_FLAG_AGE TT_EXACT 0⟩

def c5State : TTState := ⟨1, fun _ => c5Occupied, 0⟩

/-- Counterexample for C5 as stated: a slot occupied by a deeper,
current-age, Exact entry for a different key survives the store, and the
subsequent probe of the stored key returns nothing rather than the stored
score and move. -/
theorem C5_counterexample :
    tt_probe (tt_store c5State 0 2 5 TT_EXACT 9) 0 = none ∧
    (tt_store c5State 0 2 5 TT_EXACT 9).table 0 = c5Occupied := by
  constructor
  · decide
  · decide

def c5Empty : TTState := ⟨1, fun _ => ⟨0, 0, 0, 0, 0⟩, 0⟩

/-- Witness for C5 on a concrete empty table. -/
theorem C5_store_probe_witness :
    tt_probe (tt_store c5Empty 3 4 10 TT_EXACT 9) 3 =
      some { key16 := 3 >>> 48, bestMove := 9, score := 10,
             depth := toInt8 4, flag_age := TT_MAKE_FLAG_AGE TT_EXACT c5Empty.age } :=
  C5_store_probe c5Empty 3 4 10 9 (by norm_num [c5Empty]) (by norm_num) (by norm_num) (by decide)

/-! ### Claim C4: TT mate-score distance -/

def c4EmptyState : TTState := ⟨1, fun _ => ⟨0, 0, 0, 0, 0⟩, 0⟩

/-- C4 is a code bug: negamax shifts a mate score by the ply before tt_store
(here 999997 stored at ply 2 becomes 999999), but tt_store truncates the
score into the 16-bit entry field, giving 16959; on reprobe at ply 3 the
mate window test (score above 999900) can never hold for an int16 value, so
the probe returns 16959 instead of the claimed 999996.  The theorem
evaluates the code at that failing input. -/
theorem C4_mate_truncation :
    (tt_probe (tt_store c4EmptyState 0 7 (negamax_store_score_adjust (MATE_SCORE - 3) 2)
        TT_EXACT 5) 0).map (fun e => negamax_probe_score_adjust e.score 3) = some 16959 ∧
    (16959 : Int) ≠ (MATE_SCORE - 3) - 1 := by
  constructor
  · decide
  · decide

/-! ### Claim C7: draw detection -/

/-- C7 (amended): away from the root, with the current position's key
already pushed as the last history entry (which applyMove always does),
is_draw reports a draw exactly when the halfmove clock reached 100 or the
key occurs at least ONCE among the earlier history entries - the first
repetition, not the second; the scan also covers the whole history array,
not only the part since the last irreversible move. -/
theorem C7_is_draw_characterization (b : Board) (ply : Nat) (hply : 0 < ply)
    (hidx : 0 < b.historyIndex)
    (hlast : aget b.history (b.historyIndex - 1) = b.zobristKey) :
    is_draw b ply = (decide (100 ≤ b.halfMoveClock) ||
      decide (1 ≤ ((List.range (b.historyIndex - 1)).filter
        (fun i => aget b.history i = b.zobristKey)).length)) := by
  unfold is_draw
  by_cases h100 : 100 ≤ b.halfMoveClock
  · simp [h100]
  · have hrw : b.historyIndex = (b.historyIndex - 1) + 1 := (Nat.succ_pred_eq_of_pos hidx).symm
    rw [if_neg (by omega), if_pos hply, hrw, List.range_succ, List.filter_append]
    simp only [List.length_append, List.filter_cons, List.filter_nil, hlast]
    simp [h100, decide_eq_decide]

def c7Board : Board :=
  { piece := fun _ => 0, byTypeBB := fun _ _ => 0, byColorBB := fun _ => 0,
    whiteToMove := true, castlingRights := 0, halfMoveClock := 0, fullMoveNumber := 1,
    enPassantSquare := 64, zobristKey := 11,
    history := aset (aset (aset (fun _ => 0) 0 11) 1 22) 2 11, historyIndex := 3 }

/-- Counterexample for C7 as stated: at a non-root node whose key occurs only
ONCE earlier in the history (and halfmove clock far below 100), is_draw
already reports a draw, while the claim requires two earlier occurrences. -/
theorem C7_counterexample :
    is_draw c7Board 1 = true ∧ c7Board.halfMoveClock < 100 ∧
    ((List.range (c7Board.historyIndex - 1)).filter
      (fun i => aget c7Board.history i = c7Board.zobristKey)).length = 1 := by
  refine ⟨by decide, by decide, by decide⟩

def c7WitnessBoard : Board :=
  { piece := fun _ => 0, byTypeBB := fun _ _ => 0, byColorBB := fun _ => 0,
    whiteToMove := true, castlingRights := 0, halfMoveClock := 0, fullMoveNumber := 1,
    enPassantSquare := 64, zobristKey := 5,
    history := aset (fun _ => 0) 0 5, historyIndex := 1 }

/-- Witness for C7's amended characterization at a concrete board. -/
theorem C7_is_draw_characterization_witness :
    is_draw c7WitnessBoard 1 = (decide (100 ≤ c7WitnessBoard.halfMoveClock) ||
      decide (1 ≤ ((List.range (c7WitnessBoard.historyIndex - 1)).filter
        (fun i => aget c7WitnessBoard.history i = c7WitnessBoard.zobristKey)).length)) :=
  C7_is_draw_characterization c7WitnessBoard 1 (by norm_num)
    (by norm_num [c7WitnessBoard]) (by decide)

/-! ### Claim C1: incremental Zobrist vs full recomputation -/

/-- The standard starting position exactly as the engine's FEN parser builds
it (parseFEN computes the Zobrist key by calculate_zobrist_key at the end). -/
def startposBase : Board :=
  { piece := fun i =>
      [4, 2, 3, 5, 6, 3, 2, 4,  1, 1, 1, 1, 1, 1, 1, 1,
       0, 0, 0, 0, 0, 0, 0, 0,  0, 0, 0, 0, 0, 0, 0, 0,
       0, 0, 0, 0, 0, 0, 0, 0,  0, 0, 0, 0, 0, 0, 0, 0,
       7, 7, 7, 7, 7, 7, 7, 7,  10, 8, 9, 11, 12, 9, 8, 10].getD (i : Nat) 0
    byTypeBB := fun c t =>
      if (c : Nat) = 0 then
        [0xFF00, 0x42, 0x24, 0x81, 0x8, 0x10].getD (t : Nat) 0
      else
        [0xFF000000000000, 0x4200000000000000, 0x2400000000000000,
         0x8100000000000000, 0x800000000000000, 0x1000000000000000].getD (t : Nat) 0
    byColorBB := fun c => if (c : Nat) = 0 then 0xFFFF else 0xFFFF000000000000
    whiteToMove := true
    castlingRights := 15
    halfMoveClock := 0
    fullMoveNumber := 1
    enPassantSquare := 64
    zobristKey := 0
    history := fun _ => 0
    historyIndex := 0 }

def startposBoard : Board := { startposBase with zobristKey := calculate_zobrist_key startposBase }

/-- The double pawn push e2e4: from 12, to 28, double-pawn-push flag set. -/
def e2e4Move : Nat := CREATE_MOVE 12 28 0 0 1 0 0

/-- C1 is a code bug: from the starting position, whose stored key equals the
full recomputation, a single applyMove of the double pawn push e2e4 leaves
board.zobristKey different from calculate_zobrist_key(board).  The
incremental update never touches the no-en-passant key (index 64): it XORs
the old en-passant key only when a square was set and the new one only on a
double push, while calculate_zobrist_key XORs key 64 whenever no square is
set.  The two sides differ by exactly that key, as the third conjunct
shows. -/
theorem C1_zobrist_incremental_mismatch :
    startposBoard.zobristKey = calculate_zobrist_key startposBoard ∧
    (applyMove startposBoard e2e4Move none none).1.zobristKey ≠
      calculate_zobrist_key (applyMove startposBoard e2e4Move none none).1 ∧
    (applyMove startposBoard e2e4Move none none).1.zobristKey =
      calculate_zobrist_key (applyMove startposBoard e2e4Move none none).1 ^^^
        zobrist_enpassant_keys 64 := by
  refine ⟨by decide, by decide, by decide⟩

/-! ### Claim C3: legality handling inside negamax -/

/-- White king e1 and bishop e2, black rook e8 and king h8, white to move:
the bishop is pinned, so its pseudo-legal moves off the e-file are illegal. -/
def c3Board : Board :=
  { piece := fun i =>
      if (i : Nat) = 4 then 6 else if (i : Nat) = 12 then 3
      else if (i : Nat) = 60 then 10 else if (i : Nat) = 63 then 12 else 0
    byTypeBB := fun c t =>
      if (c : Nat) = 0 then
        (if (t : Nat) = 5 then 0x10 else if (t : Nat) = 2 then 0x1000 else 0)
      else
        (if (t : Nat) = 3 then 0x1000000000000000
         else if (t : Nat) = 5 then 0x8000000000000000 else 0)
    byColorBB := fun c => if (c : Nat) = 0 then 0x1010 else 0x9000000000000000
    whiteToMove := true
    castlingRights := 0
    halfMoveClock := 0
    fullMoveNumber := 1
    enPassantSquare := 64
    zobristKey := 0
    history := fun _ => 0
    historyIndex := 0 }

/-- The pinned bishop's pseudo-legal move e2d3. -/
def c3IllegalMove : Nat := CREATE_MOVE 12 19 0 0 0 0 0

/-- C3 is a code bug: generateMoves (pseudo-legal by its own comment, which
defers legality to the search) emits the pinned-bishop move e2d3; after
applyMove the mover's king is attacked, i.e. the move is illegal; yet the
negamax move loop contains no king-attack check between applyMove and the
use of the child's score, so the illegal move's score becomes the node's
alpha and best move.  (Quiescence does perform exactly this check and skips
the move; negamax does not.) -/
theorem C3_negamax_uses_illegal_move :
    (generateMoves c3Board).count = 13 ∧
    (generateMoves c3Board).moves 6 = c3IllegalMove ∧
    isKingAttacked (applyMove c3Board c3IllegalMove none none).1 true = true ∧
    (negamaxMoveLoop false 1000000 (fun _ _ => 100) none none c3Board [c3IllegalMove]
      (-1000000) 0 0).2 = (100, c3IllegalMove) := by
  refine ⟨by decide, by decide, by decide, by decide⟩

/-! ### Claim C8: nnue_evaluate output pipeline -/

/-- The output pipeline in the claim's own words (refinement reference):
bucket = clamp((piece_count - 2) / ceil(30 / output_buckets), 0,
output_buckets - 1); SCReLU clamp(x, 0, QA) then squaring on each hidden
activation of the us and them perspectives; dot products with the bucket's
first and second hidden-size output-weight halves; 64-bit sum; divide by QA;
add the bucket's output bias; multiply by SCALE; divide by QA*QB. -/
def nnue_evaluate_spec (b : Board) (acc : NNUEAccumulator) (net : NNUENetwork) : Int :=
  let piece_count :=
    POPCOUNT b.whitePawns + POPCOUNT b.whiteKnights + POPCOUNT b.whiteBishops +
    POPCOUNT b.whiteRooks + POPCOUNT b.whiteQueens + POPCOUNT b.whiteKings +
    POPCOUNT b.blackPawns + POPCOUNT b.blackKnights + POPCOUNT b.blackBishops +
    POPCOUNT b.blackRooks + POPCOUNT b.blackQueens + POPCOUNT b.blackKings
  let divisor := (30 + NNUE_OUTPUT_BUCKETS - 1) / NNUE_OUTPUT_BUCKETS
  let bucket := min (max ((piece_count - 2) / divisor) 0) (NNUE_OUTPUT_BUCKETS - 1)
  let us_acc := if b.whiteToMove then acc.white else acc.black
  let them_acc := if b.whiteToMove then acc.black else acc.white
  let output : Int :=
    (∑ i : Fin NNUE_HIDDEN_SIZE,
      min (max (us_acc i) 0) NNUE_QA * min (max (us_acc i) 0) NNUE_QA *
        net.output_weights bucket (i : Nat)) +
    (∑ i : Fin NNUE_HIDDEN_SIZE,
      min (max (them_acc i) 0) NNUE_QA * min (max (them_acc i) 0) NNUE_QA *
        net.output_weights bucket (NNUE_HIDDEN_SIZE + (i : Nat)))
  Int.tdiv ((Int.tdiv output NNUE_QA + net.output_biases bucket) * NNUE_SCALE)
    (NNUE_QA * NNUE_QB)

/-- C8: for a board with both kings present and a computed accumulator,
nnue_evaluate computes exactly the claim's pipeline (nnue_evaluate_spec) -
its bucket selection, SCReLU, dot products, QA division, bias, SCALE
multiplication and QA*QB division all coincide - and finally negates the
value for the black side to move (the side-to-move sign flip follows the
pipeline). -/
theorem C8_nnue_evaluate_refines (b : Board) (acc : NNUEAccumulator) (net : NNUENetwork)
    (hacc : acc.computed = true) (hwk : b.whiteKings ≠ 0) (hbk : b.blackKings ≠ 0) :
    nnue_evaluate b acc net =
      if b.whiteToMove then nnue_evaluate_spec b acc net
      else -(nnue_evaluate_spec b acc net) := by
  have hclamp : ∀ x : Int, clampQA x = min (max x 0) NNUE_QA := by
    intro x
    unfold clampQA NNUE_QA
    split_ifs <;> omega
  have hbucket : ∀ n : Nat, (if n ≥ NNUE_OUTPUT_BUCKETS then NNUE_OUTPUT_BUCKETS - 1 else n) =
      min (max (n : Nat) 0) (NNUE_OUTPUT_BUCKETS - 1) := by
    intro n
    unfold NNUE_OUTPUT_BUCKETS
    split_ifs <;> omega
  have hdiv : (30 + NNUE_OUTPUT_BUCKETS - 1) / NNUE_OUTPUT_BUCKETS = 4 := by
    unfold NNUE_OUTPUT_BUCKETS
    norm_num
  unfold nnue_evaluate nnue_evaluate_spec nnue_get_output_bucket
  simp only [hacc, Bool.not_true, Bool.false_eq_true, if_false, hclamp, hbucket, hdiv]

def c8Board : Board :=
  { piece := fun i => if (i : Nat) = 4 then 6 else if (i : Nat) = 60 then 12 else 0
    byTypeBB := fun c t =>
      if (c : Nat) = 0 then (if (t : Nat) = 5 then 0x10 else 0)
      else (if (t : Nat) = 5 then 0x1000000000000000 else 0)
    byColorBB := fun c => if (c : Nat) = 0 then 0x10 else 0x1000000000000000
    whiteToMove := true
    castlingRights := 0
    halfMoveClock := 0
    fullMoveNumber := 1
    enPassantSquare := 64
    zobristKey := 0
    history := fun _ => 0
    historyIndex := 0 }

def c8Acc : NNUEAccumulator := { white := fun _ => 0, black := fun _ => 0, computed := true }

def c8Net : NNUENetwork :=
  { ft_weights := fun _ _ _ => 0, ft_biases := fun _ => 0,
    output_weights := fun _ _ => 0, output_biases := fun _ => 0 }

/-- Witness for C8 at a concrete two-king board with a computed
accumulator. -/
theorem C8_nnue_evaluate_refines_witness :
    nnue_evaluate c8Board c8Acc c8Net =
      if c8Board.whiteToMove then nnue_evaluate_spec c8Board c8Acc c8Net
      else -(nnue_evaluate_spec c8Board c8Acc c8Net) :=
  C8_nnue_evaluate_refines c8Board c8Acc c8Net rfl (by decide) (by decide)

/-! ### Lemma kit for the make/unmake round trip (claim C2) -/

theorem aget_aset_same {n : Nat} (f : Fin n → Nat) (i v : Nat) (h : i < n) :
    aget (aset f i v) i = v := by
  unfold aget aset
  simp [h]

theorem aget_aset_ne {n : Nat} (f : Fin n → Nat) (i j v : Nat) (h : j ≠ i) :
    aget (aset f i v) j = aget f j := by
  unfold aget aset
  split
  · simp [h]
  · rfl

theorem aset_aset_same {n : Nat} (f : Fin n → Nat) (i v w : Nat) :
    aset (aset f i v) i w = aset f i w := by
  funext j
  unfold aset
  by_cases h : (j : Nat) = i <;> simp [h]

theorem aset_comm {n : Nat} (f : Fin n → Nat) (i j v w : Nat) (h : i ≠ j) :
    aset (aset f i v) j w = aset (aset f j w) i v := by
  funext k
  unfold aset
  by_cases h1 : (k : Nat) = j <;> by_cases h2 : (k : Nat) = i <;> simp_all

theorem aset_eq_self {n : Nat} (f : Fin n → Nat) (i v : Nat) (h : aget f i = v) :
    aset f i v = f := by
  funext j
  unfold aset
  by_cases hj : (j : Nat) = i
  · unfold aget at h
    subst hj
    simp [j.isLt] at h
    simp [h]
  · simp [hj]

theorem getBB_setBB_same (f : Fin 2 → Fin 6 → Nat) (c t v : Nat) (hc : c < 2) (ht : t < 6) :
    getBB (setBB f c t v) c t = v := by
  unfold getBB setBB
  simp [hc, ht]

theorem getBB_setBB_ne (f : Fin 2 → Fin 6 → Nat) (c t c' t' v : Nat)
    (h : c' ≠ c ∨ t' ≠ t) : getBB (setBB f c t v) c' t' = getBB f c' t' := by
  unfold getBB setBB
  split
  · split
    · rcases h with h | h <;> simp [h]
    · rfl
  · rfl

theorem setBB_setBB_same (f : Fin 2 → Fin 6 → Nat) (c t v w : Nat) :
    setBB (setBB f c t v) c t w = setBB f c t w := by
  funext c' t'
  unfold setBB
  by_cases h : (c' : Nat) = c ∧ (t' : Nat) = t <;> simp [h]

theorem setBB_comm (f : Fin 2 → Fin 6 → Nat) (c₁ t₁ v₁ c₂ t₂ v₂ : Nat)
    (h : c₁ ≠ c₂ ∨ t₁ ≠ t₂) :
    setBB (setBB f c₁ t₁ v₁) c₂ t₂ v₂ = setBB (setBB f c₂ t₂ v₂) c₁ t₁ v₁ := by
  funext c' t'
  unfold setBB
  by_cases h1 : (c' : Nat) = c₂ ∧ (t' : Nat) = t₂ <;>
    by_cases h2 : (c' : Nat) = c₁ ∧ (t' : Nat) = t₁
  · exfalso
    obtain ⟨a1, b1⟩ := h1
    obtain ⟨a2, b2⟩ := h2
    rcases h with h | h <;> omega
  · simp only [if_pos h1, if_neg h2]
  · simp only [if_neg h1, if_pos h2]
  · simp only [if_neg h1, if_neg h2]

theorem setBB_eq_self (f : Fin 2 → Fin 6 → Nat) (c t v : Nat) (h : getBB f c t = v)
    (hc : c < 2) (ht : t < 6) : setBB f c t v = f := by
  funext c' t'
  unfold setBB
  by_cases hct : (c' : Nat) = c ∧ (t' : Nat) = t
  · rw [if_pos hct]
    unfold getBB at h
    rw [dif_pos hc, dif_pos ht] at h
    have e1 : c' = ⟨c, hc⟩ := Fin.ext hct.1
    have e2 : t' = ⟨t, ht⟩ := Fin.ext hct.2
    rw [e1, e2, ← h]
  · rw [if_neg hct]

theorem bit_eq_two_pow (sq : Nat) : bit sq = 2 ^ sq := by
  unfold bit
  simp [Nat.shiftLeft_eq]

theorem testBit_bit (a j : Nat) : (bit a).testBit j = decide (a = j) := by
  rw [bit_eq_two_pow]
  exact Nat.testBit_two_pow

theorem testBit_ge_64_eq_false {x j : Nat} (hx : x < 2 ^ 64) (hj : 64 ≤ j) :
    x.testBit j = false := by
  apply Nat.testBit_eq_false_of_lt
  calc x < 2 ^ 64 := hx
    _ ≤ 2 ^ j := Nat.pow_le_pow_right (by norm_num) hj

theorem testBit_compl64_bit (t j : Nat) (ht : t < 64) :
    (compl64 (bit t)).testBit j = (decide (j < 64) && ! decide (t = j)) := by
  unfold compl64 mask64
  rw [Nat.testBit_xor, Nat.testBit_two_pow_sub_one, testBit_bit]
  by_cases hj : j < 64 <;> by_cases hjt : t = j <;> simp_all

theorem and_compl_or_restore {x : Nat} (t : Nat) (hx : x < 2 ^ 64) (ht : t < 64)
    (hbit : x.testBit t = true) : (x &&& compl64 (bit t)) ||| bit t = x := by
  apply Nat.eq_of_testBit_eq
  intro j
  rw [Nat.testBit_lor, Nat.testBit_land, testBit_compl64_bit t j ht, testBit_bit]
  by_cases hjt : t = j
  · subst hjt
    simp [hbit]
  · by_cases hj : j < 64
    · simp [hjt, hj]
    · have hxj : x.testBit j = false := testBit_ge_64_eq_false hx (by omega)
      simp [hjt, hj, hxj]

theorem or_and_compl_restore {x : Nat} (t : Nat) (hx : x < 2 ^ 64) (ht : t < 64)
    (hbit : x.testBit t = false) : (x ||| bit t) &&& compl64 (bit t) = x := by
  apply Nat.eq_of_testBit_eq
  intro j
  rw [Nat.testBit_land, Nat.testBit_lor, testBit_compl64_bit t j ht, testBit_bit]
  by_cases hjt : t = j
  · subst hjt
    simp [hbit]
  · by_cases hj : j < 64
    · simp [hjt, hj]
    · have hxj : x.testBit j = false := testBit_ge_64_eq_false hx (by omega)
      simp [hjt, hj, hxj]

theorem xor_bit_or_restore {x : Nat} (t : Nat) (hbit : x.testBit t = true) :
    (x ^^^ bit t) ||| bit t = x := by
  apply Nat.eq_of_testBit_eq
  intro j
  rw [Nat.testBit_lor, Nat.testBit_xor, testBit_bit]
  by_cases hjt : t = j
  · subst hjt
    simp [hbit]
  · simp [hjt]

theorem lor_bit_eq_xor {a b : Nat} (h : a ≠ b) : bit a ||| bit b = bit a ^^^ bit b := by
  apply Nat.eq_of_testBit_eq
  intro j
  rw [Nat.testBit_lor, Nat.testBit_xor, testBit_bit, testBit_bit]
  by_cases h1 : a = j <;> by_cases h2 : b = j <;> simp_all

theorem xor_fromTo_cancel (x F T : Nat) : (x ^^^ (bit F ||| bit T)) ^^^ (bit F ||| bit T) = x :=
  Nat.xor_cancel_right _ x

theorem xor_fromTo_xor_to {x : Nat} (F T : Nat) (h : F ≠ T) :
    (x ^^^ (bit F ||| bit T)) ^^^ bit T = x ^^^ bit F := by
  rw [lor_bit_eq_xor h, Nat.xor_assoc, Nat.xor_cancel_right]

theorem PIECE_TYPE_OF_make (t c : Nat) (ht : t < 6) (hc : c < 2) :
    PIECE_TYPE_OF (MAKE_PIECE_NEW t c) = t := by
  unfold PIECE_TYPE_OF MAKE_PIECE_NEW
  split_ifs <;> omega

theorem PIECE_COLOR_OF_make (t c : Nat) (ht : t < 6) (hc : c < 2) :
    PIECE_COLOR_OF (MAKE_PIECE_NEW t c) = c := by
  unfold PIECE_COLOR_OF MAKE_PIECE_NEW
  split_ifs <;> omega

/-- Entry-wise int16 range of an accumulator (every store in the C truncates
to int16, so reachable accumulators satisfy this). -/
def accRange (acc : NNUEAccumulator) : Prop :=
  ∀ i : Fin NNUE_HIDDEN_SIZE,
    -32768 ≤ acc.white i ∧ acc.white i < 32768 ∧
    -32768 ≤ acc.black i ∧ acc.black i < 32768

theorem bitFoldAux_pred {α : Type} (P : α → Prop) (f : α → Nat → α)
    (hf : ∀ a s, P a → P (f a s)) :
    ∀ (fuel bb : Nat) (a : α), P a → P (bitFoldAux f fuel bb a) := by
  intro fuel
  induction fuel with
  | zero => intro bb a ha; exact ha
  | succ g ih =>
    intro bb a ha
    unfold bitFoldAux
    split
    · exact ha
    · exact ih _ _ (hf a _ ha)

theorem bitFoldAux_estab {α : Type} (P : α → Prop) (f : α → Nat → α)
    (hf : ∀ a s, P (f a s)) :
    ∀ (fuel bb : Nat) (a : α), bb ≠ 0 → 0 < fuel → P (bitFoldAux f fuel bb a) := by
  intro fuel bb a hbb hfuel
  match fuel, hfuel with
  | g + 1, _ =>
    unfold bitFoldAux
    rw [if_neg hbb]
    exact bitFoldAux_pred P f (fun a s _ => hf a s) _ _ _ (hf a _)

theorem add_piece_features_range_pres (acc : NNUEAccumulator) (net : NNUENetwork)
    (pieces pt pc : Nat) (wb bk : KingBucket) (h : accRange acc) :
    accRange (add_piece_features acc net pieces pt pc wb bk) := by
  unfold add_piece_features bitFold
  refine bitFoldAux_pred accRange _ (fun a s _ => ?_) _ _ _ h
  intro i
  refine ⟨(toInt16_bounds _).1, (toInt16_bounds _).2, (toInt16_bounds _).1, (toInt16_bounds _).2⟩

theorem add_piece_features_range_estab (acc : NNUEAccumulator) (net : NNUENetwork)
    (pieces pt pc : Nat) (wb bk : KingBucket) (h : pieces ≠ 0) :
    accRange (add_piece_features acc net pieces pt pc wb bk) := by
  unfold add_piece_features bitFold
  refine bitFoldAux_estab accRange _ (fun a s => ?_) _ _ _ h (by norm_num)
  intro i
  refine ⟨(toInt16_bounds _).1, (toInt16_bounds _).2, (toInt16_bounds _).1, (toInt16_bounds _).2⟩

theorem nnue_refresh_range (b : Board) (net : NNUENetwork)
    (hk1 : b.whiteKings ≠ 0) (hk2 : b.blackKings ≠ 0) :
    accRange (nnue_refresh_accumulator b net) := by
  unfold nnue_refresh_accumulator
  have hw : get_lsb b.whiteKings = (ctz64 b.whiteKings : Int) := by
    unfold get_lsb
    rw [if_neg hk1]
  have hb : get_lsb b.blackKings = (ctz64 b.blackKings : Int) := by
    unfold get_lsb
    rw [if_neg hk2]
  rw [hw, hb, if_neg (by push_neg; constructor <;> positivity)]
  intro i
  have step : ∀ (a : NNUEAccumulator) (pieces pt pc : Nat) (wb bk : KingBucket),
      accRange a → accRange (add_piece_features a net pieces pt pc wb bk) :=
    fun a pieces pt pc wb bk ha => add_piece_features_range_pres a net pieces pt pc wb bk ha
  have base : accRange (add_piece_features
      (add_piece_features
        (add_piece_features
          (add_piece_features
            (add_piece_features
              (add_piece_features
                { white := fun i => net.ft_biases i, black := fun i => net.ft_biases i,
                  computed := false }
                net b.whitePawns 0 0 (get_king_bucket (Int.toNat (ctz64 b.whiteKings)) 0)
                  (get_king_bucket (Int.toNat (ctz64 b.blackKings)) 1))
              net b.whiteKnights 1 0 (get_king_bucket (Int.toNat (ctz64 b.whiteKings)) 0)
                (get_king_bucket (Int.toNat (ctz64 b.blackKings)) 1))
            net b.whiteBishops 2 0 (get_king_bucket (Int.toNat (ctz64 b.whiteKings)) 0)
              (get_king_bucket (Int.toNat (ctz64 b.blackKings)) 1))
          net b.whiteRooks 3 0 (get_king_bucket (Int.toNat (ctz64 b.whiteKings)) 0)
            (get_king_bucket (Int.toNat (ctz64 b.blackKings)) 1))
        net b.whiteQueens 4 0 (get_king_bucket (Int.toNat (ctz64 b.whiteKings)) 0)
          (get_king_bucket (Int.toNat (ctz64 b.blackKings)) 1))
      net b.whiteKings 5 0 (get_king_bucket (Int.toNat (ctz64 b.whiteKings)) 0)
        (get_king_bucket (Int.toNat (ctz64 b.blackKings)) 1)) :=
    add_piece_features_range_estab _ net _ 5 0 _ _ hk1
  exact (step _ _ _ _ _ _ (step _ _ _ _ _ _ (step _ _ _ _ _ _ (step _ _ _ _ _ _
    (step _ _ _ _ _ _ (step _ _ _ _ _ _ base)))))) i

theorem nnue_refresh_congr (b1 b2 : Board) (net : NNUENetwork)
    (h : b1.byTypeBB = b2.byTypeBB) :
    nnue_refresh_accumulator b1 net = nnue_refresh_accumulator b2 net := by
  unfold nnue_refresh_accumulator Board.whitePawns Board.whiteKnights Board.whiteBishops
    Board.whiteRooks Board.whiteQueens Board.whiteKings Board.blackPawns Board.blackKnights
    Board.blackBishops Board.blackRooks Board.blackQueens Board.blackKings
  rw [h]

theorem nnue_undo_congr (b1 b2 : Board) (acc : NNUEAccumulator) (net : NNUENetwork)
    (F T mt : Nat) (cap : Int) (w ep : Bool) (h : b1.byTypeBB = b2.byTypeBB) :
    nnue_undo_move b1 acc net F T mt cap w ep = nnue_undo_move b2 acc net F T mt cap w ep := by
  unfold nnue_undo_move nnue_update_piece_move nnue_capture_delta
  rw [nnue_refresh_congr b1 b2 net h]
  unfold Board.whiteKings Board.blackKings
  rw [h]

/-- The incremental nnue_apply_move followed by nnue_undo_move with the same
arguments restores the accumulator exactly: every int16 store truncates, and
the additive deltas cancel modulo 65536. -/
theorem nnue_apply_undo_inverse (b : Board) (acc : NNUEAccumulator) (net : NNUENetwork)
    (F T mt : Nat) (cap : Int) (w ep : Bool)
    (hk1 : b.whiteKings ≠ 0) (hk2 : b.blackKings ≠ 0) (hcomp : acc.computed = true)
    (hrange : accRange acc) :
    nnue_undo_move b (nnue_apply_move b acc net F T mt cap w ep) net F T mt cap w ep = acc := by
  obtain ⟨aw, ab, ac⟩ := acc
  simp only [accRange] at hrange
  subst hcomp
  have hw : get_lsb b.whiteKings = (ctz64 b.whiteKings : Int) := by
    unfold get_lsb
    rw [if_neg hk1]
  have hb : get_lsb b.blackKings = (ctz64 b.blackKings : Int) := by
    unfold get_lsb
    rw [if_neg hk2]
  have hcond : ¬((ctz64 b.whiteKings : Int) < 0 ∨ (ctz64 b.blackKings : Int) < 0) := by
    push_neg
    constructor <;> positivity
  have hcond2 : ((ctz64 b.whiteKings : Int) ≥ 0 ∧ (ctz64 b.blackKings : Int) ≥ 0) := by
    constructor <;> positivity
  unfold nnue_apply_move nnue_undo_move nnue_update_piece_move
    nnue_update_piece_move_with_kings nnue_capture_delta
  rw [hw, hb]
  simp only [hcond, hcond2, if_neg, if_pos, if_false, if_true, and_true, true_and,
    Bool.not_true, Bool.false_eq_true, ite_false, ite_true]
  rw [if_neg (by simp [apply_ite])]
  by_cases hcap : cap ≥ 0
  · simp only [if_pos hcap]
    try dsimp only
    congr 1 <;> funext i <;>
      simp only [toInt16_add_left, toInt16_sub_left] <;>
      unfold toInt16 <;>
      rcases hrange i with ⟨h1, h2, h3, h4⟩ <;> omega
  · simp only [if_neg hcap]
    try dsimp only
    congr 1 <;> funext i <;>
      simp only [toInt16_add_left, toInt16_sub_left] <;>
      unfold toInt16 <;>
      rcases hrange i with ⟨h1, h2, h3, h4⟩ <;> omega

/-! ### Make/unmake round trip: templates, dispatch and claim C2 -/

theorem MOVE_FROM_lt (m : Nat) : MOVE_FROM m < 64 := by
  unfold MOVE_FROM
  have h : m &&& 63 ≤ 63 := Nat.and_le_right
  omega

theorem MOVE_TO_lt (m : Nat) : MOVE_TO m < 64 := by
  unfold MOVE_TO
  have h : (m >>> 6) &&& 63 ≤ 63 := Nat.and_le_right
  omega

theorem nnue_refresh_computed (b : Board) (net : NNUENetwork)
    (hk1 : b.whiteKings ≠ 0) (hk2 : b.blackKings ≠ 0) :
    (nnue_refresh_accumulator b net).computed = true := by
  unfold nnue_refresh_accumulator
  have hw : get_lsb b.whiteKings = (ctz64 b.whiteKings : Int) := by
    unfold get_lsb
    rw [if_neg hk1]
  have hb : get_lsb b.blackKings = (ctz64 b.blackKings : Int) := by
    unfold get_lsb
    rw [if_neg hk2]
  rw [hw, hb, if_neg (by push_neg; constructor <;> positivity)]

theorem nnue_undo_apply_restore (b bR : Board) (acc : NNUEAccumulator) (net : NNUENetwork)
    (F T mt : Nat) (cap : Int) (w ep : Bool)
    (hbb : bR.byTypeBB = b.byTypeBB)
    (hk1 : b.whiteKings ≠ 0) (hk2 : b.blackKings ≠ 0)
    (hcomp : acc.computed = true) (hrange : accRange acc) :
    nnue_undo_move bR (nnue_apply_move b acc net F T mt cap w ep) net F T mt cap w ep = acc := by
  rw [nnue_undo_congr bR b _ net _ _ _ _ _ _ hbb]
  exact nnue_apply_undo_inverse b acc net F T mt cap w ep hk1 hk2 hcomp hrange


theorem template_roundtrip_quiet (us mt : Nat) (b : Board) (m : Nat)
    (acc : NNUEAccumulator) (net : NNUENetwork)
    (hus : us < 2) (hmt : mt < 6)
    (hFT : MOVE_FROM m ≠ MOVE_TO m)
    (hpF : aget b.piece (MOVE_FROM m) = MAKE_PIECE_NEW mt us)
    (hpT : aget b.piece (MOVE_TO m) = 0)
    (hk1 : getBB b.byTypeBB 0 5 ≠ 0) (hk2 : getBB b.byTypeBB 1 5 ≠ 0)
    (hacc : acc = nnue_refresh_accumulator b net) :
    undoMoveTemplate us mt false false false false
        (applyMoveTemplate us mt false false false false b m (some acc) (some net)).1 m
        (applyMoveTemplate us mt false false false false b m (some acc) (some net)).2.1
        (applyMoveTemplate us mt false false false false b m (some acc) (some net)).2.2
        (some net) =
      ({ b with history := (aset b.history b.historyIndex
          (applyMoveTemplate us mt false false false false b m (some acc) (some net)).1.zobristKey) },
       some acc) := by
  have hrangeacc : accRange acc := hacc ▸ nnue_refresh_range b net hk1 hk2
  have hcompacc : acc.computed = true := by
    rw [hacc]
    exact nnue_refresh_computed b net hk1 hk2
  have hT64 := MOVE_TO_lt m
  have hTF : MOVE_TO m ≠ MOVE_FROM m := Ne.symm hFT
  by_cases hmt5 : mt = 5
  · subst hmt5
    simp only [applyMoveTemplate, undoMoveTemplate, withNNUE, Bool.false_eq_true, if_false,
      if_true, ite_false, ite_true, not_false_iff, true_and, and_true, false_and, and_false,
      ne_eq, not_false_eq_true, eq_self_iff_true, not_true, false_or, or_false]
    have hcur : aget (aset (aset b.piece (MOVE_FROM m) 0) (MOVE_TO m)
        (aget b.piece (MOVE_FROM m))) (MOVE_TO m) = aget b.piece (MOVE_FROM m) :=
      aget_aset_same _ _ _ hT64
    rw [hcur, hpF, PIECE_TYPE_OF_make 5 us (by omega) hus]
    rw [aset_aset_same, getBB_setBB_same _ _ _ _ hus (by omega), xor_fromTo_cancel,
      setBB_setBB_same, setBB_eq_self _ _ _ _ rfl hus (by omega)]
    have hgetT : aget (aset b.piece (MOVE_FROM m) 0) (MOVE_TO m) = 0 := by
      rw [aget_aset_ne _ _ _ _ hTF, hpT]
    rw [aset_eq_self _ _ _ hgetT, aset_aset_same, aset_eq_self _ _ _ hpF]
    simp only [Prod.mk.injEq, Board.mk.injEq, Bool.not_not, Nat.add_sub_cancel, and_true,
      true_and, Option.some.injEq]
    constructor
    · split_ifs <;> omega
    · exact (nnue_refresh_congr _ b net rfl).trans hacc.symm
  · simp only [applyMoveTemplate, undoMoveTemplate, withNNUE, Bool.false_eq_true, if_false,
      if_true, ite_false, ite_true, not_false_iff, true_and, and_true, false_and, and_false,
      hmt5, ne_eq, not_false_eq_true, eq_self_iff_true, if_neg hmt5]
    have hcur : aget (aset (aset b.piece (MOVE_FROM m) 0) (MOVE_TO m)
        (aget b.piece (MOVE_FROM m))) (MOVE_TO m) = aget b.piece (MOVE_FROM m) :=
      aget_aset_same _ _ _ hT64
    rw [hcur, hpF, PIECE_TYPE_OF_make mt us hmt hus]
    rw [aset_aset_same, getBB_setBB_same _ _ _ _ hus hmt, xor_fromTo_cancel,
      setBB_setBB_same, setBB_eq_self _ _ _ _ rfl hus hmt]
    have hgetT : aget (aset b.piece (MOVE_FROM m) 0) (MOVE_TO m) = 0 := by
      rw [aget_aset_ne _ _ _ _ hTF, hpT]
    rw [aset_eq_self _ _ _ hgetT, aset_aset_same, aset_eq_self _ _ _ hpF]
    simp only [Prod.mk.injEq, Board.mk.injEq, Bool.not_not, Nat.add_sub_cancel, and_true,
      true_and, Option.some.injEq]
    constructor
    · split_ifs <;> omega
    · exact nnue_undo_apply_restore b _ acc net (MOVE_FROM m) (MOVE_TO m) mt (-1)
        (decide (us = 0)) false rfl hk1 hk2 hcompacc hrangeacc


theorem MAKE_PIECE_eq_new (t c : Nat) (hc : c < 2) :
    MAKE_PIECE (t + 1) (decide (c = 0)) = MAKE_PIECE_NEW t c := by
  unfold MAKE_PIECE MAKE_PIECE_NEW
  interval_cases c <;> simp

theorem template_roundtrip_capture (us mt ct : Nat) (b : Board) (m : Nat)
    (acc : NNUEAccumulator) (net : NNUENetwork)
    (hus : us < 2) (hmt : mt < 6) (hct : ct < 6)
    (hFT : MOVE_FROM m ≠ MOVE_TO m)
    (hpF : aget b.piece (MOVE_FROM m) = MAKE_PIECE_NEW mt us)
    (hpT : aget b.piece (MOVE_TO m) = MAKE_PIECE_NEW ct (1 - us))
    (hbitT : (getBB b.byTypeBB (1 - us) ct).testBit (MOVE_TO m) = true)
    (hlt : getBB b.byTypeBB (1 - us) ct < 2 ^ 64)
    (hk1 : getBB b.byTypeBB 0 5 ≠ 0) (hk2 : getBB b.byTypeBB 1 5 ≠ 0)
    (hacc : acc = nnue_refresh_accumulator b net) :
    undoMoveTemplate us mt true false false false
        (applyMoveTemplate us mt true false false false b m (some acc) (some net)).1 m
        (applyMoveTemplate us mt true false false false b m (some acc) (some net)).2.1
        (applyMoveTemplate us mt true false false false b m (some acc) (some net)).2.2
        (some net) =
      ({ b with history := (aset b.history b.historyIndex
          (applyMoveTemplate us mt true false false false b m (some acc) (some net)).1.zobristKey) },
       some acc) := by
  have hrangeacc : accRange acc := hacc ▸ nnue_refresh_range b net hk1 hk2
  have hcompacc : acc.computed = true := by
    rw [hacc]
    exact nnue_refresh_computed b net hk1 hk2
  have hT64 := MOVE_TO_lt m
  have hTF : MOVE_TO m ≠ MOVE_FROM m := Ne.symm hFT
  have hne : us ≠ 1 - us := by omega
  have hne2 : 1 - us ≠ us := by omega
  have hthem2 : 1 - us < 2 := by omega
  have hcast : ((ct + 1 : Nat) : Int) - 1 = (ct : Int) := by push_cast; ring
  have hP1T : aget (aset (aset b.piece (MOVE_TO m) 0) (MOVE_FROM m) 0) (MOVE_TO m) = 0 := by
    rw [aget_aset_ne _ _ _ _ hTF, aget_aset_same _ _ _ hT64]
  by_cases hmt5 : mt = 5
  · subst hmt5
    simp only [applyMoveTemplate, undoMoveTemplate, withNNUE, Bool.false_eq_true, if_false,
      if_true, ite_false, ite_true, not_false_iff, true_and, and_true, false_and, and_false,
      ne_eq, not_false_eq_true, eq_self_iff_true, not_true, false_or, or_false,
      Bool.true_eq_false]
    rw [hpT, PIECE_TYPE_OF_make ct (1 - us) hct hthem2]
    simp only [Int.toNat_natCast, Nat.add_sub_cancel]
    have hcurC : aget (aset (aset (aset b.piece (MOVE_TO m) 0) (MOVE_FROM m) 0) (MOVE_TO m)
        (aget b.piece (MOVE_FROM m))) (MOVE_TO m) = aget b.piece (MOVE_FROM m) :=
      aget_aset_same _ _ _ hT64
    rw [hcurC, hpF, PIECE_TYPE_OF_make 5 us (by omega) hus, MAKE_PIECE_eq_new ct (1 - us) hthem2]
    rw [getBB_setBB_ne b.byTypeBB (1 - us) ct us 5 _ (Or.inl hne)]
    rw [getBB_setBB_same _ us 5 _ hus (by omega), xor_fromTo_cancel]
    rw [setBB_setBB_same]
    rw [getBB_setBB_ne _ us 5 (1 - us) ct _ (Or.inl hne2),
      getBB_setBB_same _ _ _ _ hthem2 hct, and_compl_or_restore _ hlt hT64 hbitT]
    rw [setBB_eq_self _ us 5 _ (getBB_setBB_ne _ _ _ _ _ _ (Or.inl hne)) hus (by omega)]
    rw [setBB_setBB_same, setBB_eq_self _ _ _ _ rfl hthem2 hct]
    rw [aset_aset_same, aset_eq_self _ _ _ hP1T, aset_aset_same,
      aset_comm _ _ _ _ _ hFT, aset_aset_same, aset_eq_self _ _ _ hpT, aset_eq_self _ _ _ hpF]
    simp only [Prod.mk.injEq, Board.mk.injEq, Bool.not_not, Nat.add_sub_cancel, and_true,
      true_and, Option.some.injEq]
    constructor
    · split_ifs <;> omega
    · exact (nnue_refresh_congr _ b net rfl).trans hacc.symm
  · simp only [applyMoveTemplate, undoMoveTemplate, withNNUE, Bool.false_eq_true, if_false,
      if_true, ite_false, ite_true, not_false_iff, true_and, and_true, false_and, and_false,
      hmt5, ne_eq, not_false_eq_true, eq_self_iff_true, if_neg hmt5, Bool.true_eq_false]
    rw [hpT, PIECE_TYPE_OF_make ct (1 - us) hct hthem2]
    simp only [Int.toNat_natCast, Nat.add_sub_cancel]
    have hcurC : aget (aset (aset (aset b.piece (MOVE_TO m) 0) (MOVE_FROM m) 0) (MOVE_TO m)
        (aget b.piece (MOVE_FROM m))) (MOVE_TO m) = aget b.piece (MOVE_FROM m) :=
      aget_aset_same _ _ _ hT64
    rw [hcurC, hpF, PIECE_TYPE_OF_make mt us hmt hus, MAKE_PIECE_eq_new ct (1 - us) hthem2]
    rw [getBB_setBB_ne b.byTypeBB (1 - us) ct us mt _ (Or.inl hne)]
    rw [getBB_setBB_same _ us mt _ hus hmt, xor_fromTo_cancel]
    rw [setBB_setBB_same]
    rw [getBB_setBB_ne _ us mt (1 - us) ct _ (Or.inl hne2),
      getBB_setBB_same _ _ _ _ hthem2 hct, and_compl_or_restore _ hlt hT64 hbitT]
    rw [setBB_eq_self _ us mt _ (getBB_setBB_ne _ _ _ _ _ _ (Or.inl hne)) hus hmt]
    rw [setBB_setBB_same, setBB_eq_self _ _ _ _ rfl hthem2 hct]
    rw [aset_aset_same, aset_eq_self _ _ _ hP1T, aset_aset_same,
      aset_comm _ _ _ _ _ hFT, aset_aset_same, aset_eq_self _ _ _ hpT, aset_eq_self _ _ _ hpF]
    rw [hcast]
    simp only [Prod.mk.injEq, Board.mk.injEq, Bool.not_not, Nat.add_sub_cancel, and_true,
      true_and, Option.some.injEq]
    constructor
    · split_ifs <;> omega
    · exact nnue_undo_apply_restore b _ acc net (MOVE_FROM m) (MOVE_TO m) mt (ct : Int)
        (decide (us = 0)) false rfl hk1 hk2 hcompacc hrangeacc


theorem template_roundtrip_ep (us : Nat) (b : Board) (m : Nat) (capSq : Nat)
    (acc : NNUEAccumulator) (net : NNUENetwork)
    (hus : us < 2)
    (hcs : capSq = if us = 0 then MOVE_TO m - 8 else MOVE_TO m + 8)
    (hFT : MOVE_FROM m ≠ MOVE_TO m)
    (hC64 : capSq < 64) (hCF : capSq ≠ MOVE_FROM m) (hCT : capSq ≠ MOVE_TO m)
    (hpF : aget b.piece (MOVE_FROM m) = MAKE_PIECE_NEW 0 us)
    (hpT : aget b.piece (MOVE_TO m) = 0)
    (hpC : aget b.piece capSq = MAKE_PIECE_NEW 0 (1 - us))
    (hbitC : (getBB b.byTypeBB (1 - us) 0).testBit capSq = true)
    (hlt : getBB b.byTypeBB (1 - us) 0 < 2 ^ 64)
    (hk1 : getBB b.byTypeBB 0 5 ≠ 0) (hk2 : getBB b.byTypeBB 1 5 ≠ 0)
    (hacc : acc = nnue_refresh_accumulator b net) :
    undoMoveTemplate us 0 true true false false
        (applyMoveTemplate us 0 true true false false b m (some acc) (some net)).1 m
        (applyMoveTemplate us 0 true true false false b m (some acc) (some net)).2.1
        (applyMoveTemplate us 0 true true false false b m (some acc) (some net)).2.2
        (some net) =
      ({ b with history := (aset b.history b.historyIndex
          (applyMoveTemplate us 0 true true false false b m (some acc) (some net)).1.zobristKey) },
       some acc) := by
  have hrangeacc : accRange acc := hacc ▸ nnue_refresh_range b net hk1 hk2
  have hcompacc : acc.computed = true := by
    rw [hacc]
    exact nnue_refresh_computed b net hk1 hk2
  have hT64 := MOVE_TO_lt m
  have hTF : MOVE_TO m ≠ MOVE_FROM m := Ne.symm hFT
  have hne : us ≠ 1 - us := by omega
  have hne2 : 1 - us ≠ us := by omega
  have hthem2 : 1 - us < 2 := by omega
  have hTC : MOVE_TO m ≠ capSq := Ne.symm hCT
  have hFC : MOVE_FROM m ≠ capSq := Ne.symm hCF
  have hpawn : (if 1 - us = 0 then 1 else 7) = MAKE_PIECE_NEW 0 (1 - us) := by
    unfold MAKE_PIECE_NEW
    split_ifs <;> omega
  have h05 : (0 : Nat) ≠ 5 := by decide
  have h03 : (0 : Nat) ≠ 3 := by decide
  simp only [applyMoveTemplate, undoMoveTemplate, withNNUE, Bool.false_eq_true, if_false,
    if_true, ite_false, ite_true, not_false_iff, true_and, and_true, false_and, and_false,
    ne_eq, not_false_eq_true, eq_self_iff_true, not_true, false_or, or_false,
    Bool.true_eq_false, Nat.cast_one, h05, h03]
  rw [← hcs]
  have hcurC : aget (aset (aset (aset b.piece capSq 0) (MOVE_FROM m) 0) (MOVE_TO m)
      (aget b.piece (MOVE_FROM m))) (MOVE_TO m) = aget b.piece (MOVE_FROM m) :=
    aget_aset_same _ _ _ hT64
  rw [hcurC, hpF, PIECE_TYPE_OF_make 0 us (by omega) hus]
  rw [getBB_setBB_ne b.byTypeBB (1 - us) 0 us 0 _ (Or.inl hne)]
  rw [getBB_setBB_same _ us 0 _ hus (by omega), xor_fromTo_cancel]
  rw [setBB_setBB_same]
  rw [setBB_eq_self _ us 0 _ (getBB_setBB_ne _ _ _ _ _ _ (Or.inl hne)) hus (by omega)]
  rw [getBB_setBB_same _ _ _ _ hthem2 (by omega), and_compl_or_restore _ hlt hC64 hbitC]
  rw [setBB_setBB_same, setBB_eq_self _ _ _ _ rfl hthem2 (by omega)]
  have hP1T : aget (aset (aset b.piece capSq 0) (MOVE_FROM m) 0) (MOVE_TO m) = 0 := by
    rw [aget_aset_ne _ _ _ _ hTF, aget_aset_ne _ _ _ _ hTC, hpT]
  have hPF : aget (aset b.piece capSq 0) (MOVE_FROM m) = MAKE_PIECE_NEW 0 us := by
    rw [aget_aset_ne _ _ _ _ hFC, hpF]
  rw [aset_aset_same, aset_eq_self _ _ _ hP1T, aset_aset_same, aset_eq_self _ _ _ hPF]
  rw [hpawn, aset_aset_same, aset_eq_self _ _ _ hpC]
  rw [sub_self]
  simp only [Prod.mk.injEq, Board.mk.injEq, Bool.not_not, Nat.add_sub_cancel, and_true,
    true_and, Option.some.injEq]
  constructor
  · split_ifs <;> omega
  · exact nnue_undo_apply_restore b _ acc net (MOVE_FROM m) (MOVE_TO m) 0 0
      (decide (us = 0)) true rfl hk1 hk2 hcompacc hrangeacc


theorem template_roundtrip_promo_quiet (us : Nat) (b : Board) (m : Nat)
    (acc : NNUEAccumulator) (net : NNUENetwork)
    (hus : us < 2)
    (hP1 : 1 ≤ MOVE_PROMOTION m) (hP4 : MOVE_PROMOTION m ≤ 4)
    (hFT : MOVE_FROM m ≠ MOVE_TO m)
    (hpF : aget b.piece (MOVE_FROM m) = MAKE_PIECE_NEW 0 us)
    (hpT : aget b.piece (MOVE_TO m) = 0)
    (hbitF : (getBB b.byTypeBB us 0).testBit (MOVE_FROM m) = true)
    (hbitTP : (getBB b.byTypeBB us (MOVE_PROMOTION m)).testBit (MOVE_TO m) = false)
    (hltP : getBB b.byTypeBB us (MOVE_PROMOTION m) < 2 ^ 64)
    (hk1 : getBB b.byTypeBB 0 5 ≠ 0) (hk2 : getBB b.byTypeBB 1 5 ≠ 0)
    (hacc : acc = nnue_refresh_accumulator b net) :
    undoMoveTemplate us 0 false false false true
        (applyMoveTemplate us 0 false false false true b m (some acc) (some net)).1 m
        (applyMoveTemplate us 0 false false false true b m (some acc) (some net)).2.1
        (applyMoveTemplate us 0 false false false true b m (some acc) (some net)).2.2
        (some net) =
      ({ b with history := (aset b.history b.historyIndex
          (applyMoveTemplate us 0 false false false true b m (some acc) (some net)).1.zobristKey) },
       some acc) := by
  have hT64 := MOVE_TO_lt m
  have hTF : MOVE_TO m ≠ MOVE_FROM m := Ne.symm hFT
  have hP0 : MOVE_PROMOTION m ≠ 0 := by omega
  have hP6 : MOVE_PROMOTION m < 6 := by omega
  have h05 : (0 : Nat) ≠ 5 := by decide
  have h03 : (0 : Nat) ≠ 3 := by decide
  have hpawnUs : (if us = 0 then 1 else 7) = MAKE_PIECE_NEW 0 us := by
    unfold MAKE_PIECE_NEW
    split_ifs <;> omega
  simp only [applyMoveTemplate, undoMoveTemplate, withNNUE, PROMO_TO_TYPE, Bool.false_eq_true,
    if_false, if_true, ite_false, ite_true, not_false_iff, true_and, and_true, false_and,
    and_false, ne_eq, not_false_eq_true, eq_self_iff_true, not_true, false_or, or_false,
    Bool.true_eq_false, h05, h03]
  have h06 : (0 : Nat) < 6 := by norm_num
  have h0P : (0 : Nat) ≠ MOVE_PROMOTION m := Ne.symm hP0
  simp only [aset_aset_same, setBB_setBB_same, aget_aset_same, aget_aset_ne,
    getBB_setBB_same, getBB_setBB_ne, setBB_eq_self, aset_eq_self,
    xor_fromTo_cancel, xor_fromTo_xor_to, or_and_compl_restore, xor_bit_or_restore,
    and_compl_or_restore, hT64, hTF, hFT, hus, hP6, hP0, h0P, h06, hpF, hpT, hbitF, hbitTP,
    hltP, hpawnUs, ne_eq, not_false_eq_true, eq_self_iff_true, not_true, false_or, or_true,
    true_or, Prod.mk.injEq, Board.mk.injEq, Bool.not_not,
    Nat.add_sub_cancel, Option.some.injEq, and_true, true_and]
  constructor
  · split_ifs <;> omega
  · exact (nnue_refresh_congr _ b net rfl).trans hacc.symm

theorem template_roundtrip_promo_capture (us ct : Nat) (b : Board) (m : Nat)
    (acc : NNUEAccumulator) (net : NNUENetwork)
    (hus : us < 2) (hct : ct < 6)
    (hP1 : 1 ≤ MOVE_PROMOTION m) (hP4 : MOVE_PROMOTION m ≤ 4)
    (hFT : MOVE_FROM m ≠ MOVE_TO m)
    (hpF : aget b.piece (MOVE_FROM m) = MAKE_PIECE_NEW 0 us)
    (hpT : aget b.piece (MOVE_TO m) = MAKE_PIECE_NEW ct (1 - us))
    (hbitF : (getBB b.byTypeBB us 0).testBit (MOVE_FROM m) = true)
    (hbitTP : (getBB b.byTypeBB us (MOVE_PROMOTION m)).testBit (MOVE_TO m) = false)
    (hltP : getBB b.byTypeBB us (MOVE_PROMOTION m) < 2 ^ 64)
    (hbitT : (getBB b.byTypeBB (1 - us) ct).testBit (MOVE_TO m) = true)
    (hlt : getBB b.byTypeBB (1 - us) ct < 2 ^ 64)
    (hk1 : getBB b.byTypeBB 0 5 ≠ 0) (hk2 : getBB b.byTypeBB 1 5 ≠ 0)
    (hacc : acc = nnue_refresh_accumulator b net) :
    undoMoveTemplate us 0 true false false true
        (applyMoveTemplate us 0 true false false true b m (some acc) (some net)).1 m
        (applyMoveTemplate us 0 true false false true b m (some acc) (some net)).2.1
        (applyMoveTemplate us 0 true false false true b m (some acc) (some net)).2.2
        (some net) =
      ({ b with history := (aset b.history b.historyIndex
          (applyMoveTemplate us 0 true false false true b m (some acc) (some net)).1.zobristKey) },
       some acc) := by
  have hT64 := MOVE_TO_lt m
  have hTF : MOVE_TO m ≠ MOVE_FROM m := Ne.symm hFT
  have hP0 : MOVE_PROMOTION m ≠ 0 := by omega
  have hP6 : MOVE_PROMOTION m < 6 := by omega
  have h05 : (0 : Nat) ≠ 5 := by decide
  have h03 : (0 : Nat) ≠ 3 := by decide
  have hne : us ≠ 1 - us := by omega
  have hne2 : 1 - us ≠ us := by omega
  have hthem2 : 1 - us < 2 := by omega
  have hpawnUs : (if us = 0 then 1 else 7) = MAKE_PIECE_NEW 0 us := by
    unfold MAKE_PIECE_NEW
    split_ifs <;> omega
  simp only [applyMoveTemplate, undoMoveTemplate, withNNUE, PROMO_TO_TYPE, Bool.false_eq_true,
    if_false, if_true, ite_false, ite_true, not_false_iff, true_and, and_true, false_and,
    and_false, ne_eq, not_false_eq_true, eq_self_iff_true, not_true, false_or, or_false,
    Bool.true_eq_false, h05, h03]
  rw [hpT, PIECE_TYPE_OF_make ct (1 - us) hct hthem2]
  simp only [Int.toNat_natCast, Nat.add_sub_cancel]
  rw [MAKE_PIECE_eq_new ct (1 - us) hthem2]
  have h06 : (0 : Nat) < 6 := by norm_num
  have h0P : (0 : Nat) ≠ MOVE_PROMOTION m := Ne.symm hP0
  simp only [aset_aset_same, setBB_setBB_same, aget_aset_same, aget_aset_ne,
    getBB_setBB_same, getBB_setBB_ne, setBB_eq_self, aset_eq_self,
    xor_fromTo_cancel, xor_fromTo_xor_to, or_and_compl_restore, xor_bit_or_restore,
    and_compl_or_restore, hT64, hTF, hFT, hus, hP6, hP0, h0P, h06, hct, hthem2, hne, hne2,
    hpF, hpT, hbitF, hbitTP, hltP, hbitT, hlt, hpawnUs, ne_eq, not_false_eq_true,
    eq_self_iff_true, not_true, false_or, or_true, true_or, Prod.mk.injEq, Board.mk.injEq,
    Bool.not_not, Nat.add_sub_cancel, Option.some.injEq, and_true, true_and]
  constructor
  · split_ifs <;> omega
  · exact (nnue_refresh_congr _ b net rfl).trans hacc.symm


theorem setBB_restore_two (f : Fin 2 → Fin 6 → Nat) (c t1 t2 v1 v2 w1 w2 : Nat)
    (hc : c < 2) (ht1 : t1 < 6) (ht2 : t2 < 6)
    (hw1 : getBB f c t1 = w1) (hw2 : getBB f c t2 = w2) :
    setBB (setBB (setBB (setBB f c t1 v1) c t2 v2) c t1 w1) c t2 w2 = f := by
  funext a b
  unfold setBB
  unfold getBB at hw1 hw2
  rw [dif_pos hc, dif_pos ht1] at hw1
  rw [dif_pos hc, dif_pos ht2] at hw2
  by_cases h2 : (a : Nat) = c ∧ (b : Nat) = t2
  · rw [if_pos h2, ← hw2]
    have e1 : a = ⟨c, hc⟩ := Fin.ext h2.1
    have e2 : b = ⟨t2, ht2⟩ := Fin.ext h2.2
    rw [e1, e2]
  · rw [if_neg h2]
    by_cases h1 : (a : Nat) = c ∧ (b : Nat) = t1
    · rw [if_pos h1, ← hw1]
      have e1 : a = ⟨c, hc⟩ := Fin.ext h1.1
      have e2 : b = ⟨t1, ht1⟩ := Fin.ext h1.2
      rw [e1, e2]
    · rw [if_neg h1, if_neg h2, if_neg h1]

theorem aset_restore_castle {n : Nat} (f : Fin n → Nat) (F T RF RT : Nat) (vF vRF : Nat)
    (hFT : F ≠ T) (hFRF : F ≠ RF) (hFRT : F ≠ RT) (hTRF : T ≠ RF) (hTRT : T ≠ RT)
    (hRFRT : RF ≠ RT)
    (hpF : aget f F = vF) (hpT : aget f T = 0) (hpRF : aget f RF = vRF)
    (hpRT : aget f RT = 0) :
    aset (aset (aset (aset (aset (aset (aset (aset f F 0) T vF) RF 0) RT vRF) T 0) F vF) RT 0)
      RF vRF = f := by
  funext j
  have hj := j.isLt
  unfold aset
  unfold aget at hpF hpT hpRF hpRT
  by_cases h1 : (j : Nat) = RF
  · rw [if_pos h1]
    rw [dif_pos (h1 ▸ hj)] at hpRF
    rw [show j = ⟨RF, h1 ▸ hj⟩ from Fin.ext h1, hpRF]
  · rw [if_neg h1]
    by_cases h2 : (j : Nat) = RT
    · rw [if_pos h2]
      rw [dif_pos (h2 ▸ hj)] at hpRT
      rw [show j = ⟨RT, h2 ▸ hj⟩ from Fin.ext h2, hpRT]
    · rw [if_neg h2]
      by_cases h3 : (j : Nat) = F
      · rw [if_pos h3]
        rw [dif_pos (h3 ▸ hj)] at hpF
        rw [show j = ⟨F, h3 ▸ hj⟩ from Fin.ext h3, hpF]
      · rw [if_neg h3]
        by_cases h4 : (j : Nat) = T
        · rw [if_pos h4]
          rw [dif_pos (h4 ▸ hj)] at hpT
          rw [show j = ⟨T, h4 ▸ hj⟩ from Fin.ext h4, hpT]
        · rw [if_neg h4, if_neg h2, if_neg h1, if_neg h4, if_neg h3]


theorem template_roundtrip_castle (us : Nat) (b : Board) (m : Nat) (RF RT : Nat)
    (acc : NNUEAccumulator) (net : NNUENetwork)
    (hus : us < 2)
    (hRF : RF = if us = 0 then (if MOVE_TO m = 6 then 7 else 0)
      else (if MOVE_TO m = 62 then 63 else 56))
    (hRT : RT = if us = 0 then (if MOVE_TO m = 6 then 5 else 3)
      else (if MOVE_TO m = 62 then 61 else 59))
    (hFT : MOVE_FROM m ≠ MOVE_TO m)
    (hFRF : MOVE_FROM m ≠ RF) (hFRT : MOVE_FROM m ≠ RT)
    (hTRF : MOVE_TO m ≠ RF) (hTRT : MOVE_TO m ≠ RT) (hRFRT : RF ≠ RT)
    (hpF : aget b.piece (MOVE_FROM m) = MAKE_PIECE_NEW 5 us)
    (hpT : aget b.piece (MOVE_TO m) = 0)
    (hpRF : aget b.piece RF = MAKE_PIECE_NEW 3 us)
    (hpRT : aget b.piece RT = 0)
    (hk1 : getBB b.byTypeBB 0 5 ≠ 0) (hk2 : getBB b.byTypeBB 1 5 ≠ 0)
    (hacc : acc = nnue_refresh_accumulator b net) :
    undoMoveTemplate us 5 false false true false
        (applyMoveTemplate us 5 false false true false b m (some acc) (some net)).1 m
        (applyMoveTemplate us 5 false false true false b m (some acc) (some net)).2.1
        (applyMoveTemplate us 5 false false true false b m (some acc) (some net)).2.2
        (some net) =
      ({ b with history := (aset b.history b.historyIndex
          (applyMoveTemplate us 5 false false true false b m (some acc) (some net)).1.zobristKey) },
       some acc) := by
  have hT64 := MOVE_TO_lt m
  have hTF : MOVE_TO m ≠ MOVE_FROM m := Ne.symm hFT
  have hRFF : RF ≠ MOVE_FROM m := Ne.symm hFRF
  have hRTF : RT ≠ MOVE_FROM m := Ne.symm hFRT
  have hRFT : RF ≠ MOVE_TO m := Ne.symm hTRF
  have hRTT : RT ≠ MOVE_TO m := Ne.symm hTRT
  have hRTRF : RT ≠ RF := Ne.symm hRFRT
  have h50 : (5 : Nat) ≠ 0 := by decide
  have h53 : (5 : Nat) ≠ 3 := by decide
  have h35 : (3 : Nat) ≠ 5 := by decide
  have h56 : (5 : Nat) < 6 := by decide
  have h36 : (3 : Nat) < 6 := by decide
  have hrook : (if us = 0 then 4 else 10) = MAKE_PIECE_NEW 3 us := by
    unfold MAKE_PIECE_NEW
    split_ifs <;> omega
  simp only [applyMoveTemplate, undoMoveTemplate, withNNUE, Bool.false_eq_true,
    if_false, if_true, ite_false, ite_true, not_false_iff, true_and, and_true, false_and,
    and_false, ne_eq, not_false_eq_true, eq_self_iff_true, not_true, false_or, or_false,
    Bool.true_eq_false, h50, h53]
  rw [← hRF, ← hRT]
  have hcur : aget (aset (aset (aset (aset b.piece (MOVE_FROM m) 0) (MOVE_TO m)
      (aget b.piece (MOVE_FROM m))) RF 0) RT (if us = 0 then 4 else 10)) (MOVE_TO m) =
      aget b.piece (MOVE_FROM m) := by
    rw [aget_aset_ne _ _ _ _ hTRT, aget_aset_ne _ _ _ _ hTRF, aget_aset_same _ _ _ hT64]
  rw [hcur, hpF, PIECE_TYPE_OF_make 5 us h56 hus, hrook]
  simp only [getBB_setBB_same, getBB_setBB_ne, xor_fromTo_cancel, hus, h56, h36, h53, h35,
    ne_eq, not_false_eq_true, eq_self_iff_true, not_true, false_or, or_true, true_or,
    Prod.mk.injEq, Board.mk.injEq, Bool.not_not, Nat.add_sub_cancel, Option.some.injEq,
    and_true, true_and]
  rw [setBB_restore_two b.byTypeBB us 5 3 _ _ _ _ hus h56 h36 rfl rfl]
  rw [aset_restore_castle b.piece (MOVE_FROM m) (MOVE_TO m) RF RT _ _ hFT hFRF hFRT hTRF
    hTRT hRFRT hpF hpT hpRF hpRT]
  simp only [eq_self_iff_true, true_and, and_true]
  constructor
  · split_ifs <;> omega
  · exact (nnue_refresh_congr _ b net rfl).trans hacc.symm


theorem applyMoveTemplate_whiteToMove (us mt : Nat) (c1 c2 c3 c4 : Bool) (b : Board) (m : Nat)
    (aO : Option NNUEAccumulator) (nO : Option NNUENetwork) :
    (applyMoveTemplate us mt c1 c2 c3 c4 b m aO nO).1.whiteToMove = !b.whiteToMove := rfl

theorem applyMoveTemplate_piece_to_nonpromo (us mt : Nat) (c1 c2 : Bool) (b : Board) (m : Nat)
    (aO : Option NNUEAccumulator) (nO : Option NNUENetwork) :
    aget (applyMoveTemplate us mt c1 c2 false false b m aO nO).1.piece (MOVE_TO m) =
      aget b.piece (MOVE_FROM m) := by
  simp only [applyMoveTemplate, Bool.false_eq_true, if_false, ite_false]
  exact aget_aset_same _ _ _ (MOVE_TO_lt m)

theorem applyMoveTemplate_piece_to_castle (us : Nat) (b : Board) (m : Nat)
    (aO : Option NNUEAccumulator) (nO : Option NNUENetwork)
    (hTRF : MOVE_TO m ≠ (if us = 0 then (if MOVE_TO m = 6 then 7 else 0)
      else (if MOVE_TO m = 62 then 63 else 56)))
    (hTRT : MOVE_TO m ≠ (if us = 0 then (if MOVE_TO m = 6 then 5 else 3)
      else (if MOVE_TO m = 62 then 61 else 59))) :
    aget (applyMoveTemplate us 5 false false true false b m aO nO).1.piece (MOVE_TO m) =
      aget b.piece (MOVE_FROM m) := by
  simp only [applyMoveTemplate, Bool.false_eq_true, if_false, ite_false, if_true, ite_true,
    eq_self_iff_true]
  rw [aget_aset_ne _ _ _ _ hTRT, aget_aset_ne _ _ _ _ hTRF]
  exact aget_aset_same _ _ _ (MOVE_TO_lt m)


/-- The make-unmake round trip at the applyMove/undoMove entry points, with
the NNUE arguments threaded exactly as search.c does. -/
def roundTrip (b : Board) (m : Nat) (accOpt : Option NNUEAccumulator)
    (netOpt : Option NNUENetwork) : Board × Option NNUEAccumulator :=
  let r := applyMove b m accOpt netOpt
  undoMove r.1 m r.2.1 r.2.2 netOpt

/-- The board-and-move side conditions under which the generated apply/undo
pair is exercised: the move's squares and flags are coherent with the board
contents, as guaranteed for moves produced by generateMoves on a consistent
position.  Spelled out by move kind exactly along the dispatch-table axes. -/
abbrev PseudoLegalAt (b : Board) (m : Nat) : Prop :=
  let us := if b.whiteToMove then 0 else 1
  let F := MOVE_FROM m
  let T := MOVE_TO m
  F ≠ T ∧
  (if MOVE_IS_EN_PASSANT m then
     MOVE_PROMOTION m = 0 ∧ MOVE_IS_CASTLING m = false ∧
     aget b.piece F = MAKE_PIECE_NEW 0 us ∧ aget b.piece T = 0 ∧
     (let capSq := if us = 0 then T - 8 else T + 8
      capSq < 64 ∧ capSq ≠ F ∧ capSq ≠ T ∧
      aget b.piece capSq = MAKE_PIECE_NEW 0 (1 - us) ∧
      (getBB b.byTypeBB (1 - us) 0).testBit capSq = true ∧
      getBB b.byTypeBB (1 - us) 0 < 2 ^ 64)
   else if MOVE_PROMOTION m ≠ 0 then
     MOVE_IS_CASTLING m = false ∧ MOVE_PROMOTION m ≤ 4 ∧
     aget b.piece F = MAKE_PIECE_NEW 0 us ∧
     (getBB b.byTypeBB us 0).testBit F = true ∧
     (getBB b.byTypeBB us (MOVE_PROMOTION m)).testBit T = false ∧
     getBB b.byTypeBB us (MOVE_PROMOTION m) < 2 ^ 64 ∧
     (if MOVE_IS_CAPTURE m then
        PIECE_TYPE_OF (aget b.piece T) < 6 ∧
        aget b.piece T = MAKE_PIECE_NEW (PIECE_TYPE_OF (aget b.piece T)) (1 - us) ∧
        (getBB b.byTypeBB (1 - us) (PIECE_TYPE_OF (aget b.piece T))).testBit T = true ∧
        getBB b.byTypeBB (1 - us) (PIECE_TYPE_OF (aget b.piece T)) < 2 ^ 64
      else aget b.piece T = 0)
   else if MOVE_IS_CASTLING m then
     aget b.piece F = MAKE_PIECE_NEW 5 us ∧ aget b.piece T = 0 ∧
     (let RF := if us = 0 then (if T = 6 then 7 else 0) else (if T = 62 then 63 else 56)
      let RT := if us = 0 then (if T = 6 then 5 else 3) else (if T = 62 then 61 else 59)
      F ≠ RF ∧ F ≠ RT ∧ T ≠ RF ∧ T ≠ RT ∧ RF ≠ RT ∧
      aget b.piece RF = MAKE_PIECE_NEW 3 us ∧ aget b.piece RT = 0)
   else
     PIECE_TYPE_OF (aget b.piece F) < 6 ∧
     aget b.piece F = MAKE_PIECE_NEW (PIECE_TYPE_OF (aget b.piece F)) us ∧
     (if MOVE_IS_CAPTURE m then
        PIECE_TYPE_OF (aget b.piece T) < 6 ∧
        aget b.piece T = MAKE_PIECE_NEW (PIECE_TYPE_OF (aget b.piece T)) (1 - us) ∧
        (getBB b.byTypeBB (1 - us) (PIECE_TYPE_OF (aget b.piece T))).testBit T = true ∧
        getBB b.byTypeBB (1 - us) (PIECE_TYPE_OF (aget b.piece T)) < 2 ^ 64
      else aget b.piece T = 0))

/-- C2: apply followed by undo restores every Board field and the NNUE
accumulator, EXCEPT the history array slot at the pre-move historyIndex,
which keeps the Zobrist key that applyMove pushed there (undoMove only
decrements the index and never erases the slot). -/
theorem C2_make_unmake_roundtrip (b : Board) (m : Nat)
    (acc : NNUEAccumulator) (net : NNUENetwork)
    (hpl : PseudoLegalAt b m)
    (hk1 : getBB b.byTypeBB 0 5 ≠ 0) (hk2 : getBB b.byTypeBB 1 5 ≠ 0)
    (hacc : acc = nnue_refresh_accumulator b net) :
    roundTrip b m (some acc) (some net) =
      ({ b with history := (aset b.history b.historyIndex
          (applyMove b m (some acc) (some net)).1.zobristKey) },
       some acc) := by
  obtain ⟨hFT, hkind⟩ := hpl
  have hus : (if b.whiteToMove then 0 else 1) < 2 := by split <;> decide
  have husEq : (if (!b.whiteToMove) = true then 1 else 0) =
      (if b.whiteToMove = true then 0 else 1) := by cases b.whiteToMove <;> rfl
  by_cases hep : MOVE_IS_EN_PASSANT m = true
  · rw [if_pos hep] at hkind
    obtain ⟨hprom0, hcastle, hpF, hpT, hC64, hCF, hCT, hpC, hbitC, hlt⟩ := hkind
    have hmtF : PIECE_TYPE_OF (aget b.piece (MOVE_FROM m)) = 0 := by
      rw [hpF]
      exact PIECE_TYPE_OF_make 0 _ (by omega) hus
    have hpromo : ¬(MOVE_PROMOTION m ≠ 0) := by omega
    simp only [roundTrip, applyMove, undoMove, hmtF, hep, hprom0, eq_self_iff_true, if_true,
      ite_true, applyMoveTemplate_whiteToMove, husEq, applyMoveTemplate_piece_to_nonpromo,
      hpromo, if_false, ite_false, Bool.false_eq_true, not_false_eq_true, ne_eq, not_true]
    exact template_roundtrip_ep _ b m _ acc net hus rfl hFT hC64 hCF hCT hpF hpT hpC
      hbitC hlt hk1 hk2 hacc
  · rw [if_neg hep] at hkind
    rw [Bool.not_eq_true] at hep
    by_cases hprom : MOVE_PROMOTION m ≠ 0
    · rw [if_pos hprom] at hkind
      obtain ⟨hcastle, hP4, hpF, hbitF, hbitTP, hltP, hrest⟩ := hkind
      have hP1 : 1 ≤ MOVE_PROMOTION m := by omega
      have hmtF : PIECE_TYPE_OF (aget b.piece (MOVE_FROM m)) = 0 := by
        rw [hpF]
        exact PIECE_TYPE_OF_make 0 _ (by omega) hus
      by_cases hcap : MOVE_IS_CAPTURE m = true
      · rw [if_pos hcap] at hrest
        obtain ⟨hct6, hpT, hbitT, hlt⟩ := hrest
        simp only [roundTrip, applyMove, undoMove, hmtF, hep, hcap, hprom, hcastle,
          eq_self_iff_true, if_true, ite_true, applyMoveTemplate_whiteToMove, husEq,
          applyMoveTemplate_piece_to_nonpromo, if_false, ite_false, Bool.false_eq_true,
          not_false_eq_true, ne_eq, not_true]
        exact template_roundtrip_promo_capture _ _ b m acc net hus hct6 hP1 hP4 hFT hpF
          hpT hbitF hbitTP hltP hbitT hlt hk1 hk2 hacc
      · rw [Bool.not_eq_true] at hcap
        rw [if_neg (by rw [hcap]; exact Bool.false_ne_true)] at hrest
        simp only [roundTrip, applyMove, undoMove, hmtF, hep, hcap, hprom, hcastle,
          eq_self_iff_true, if_true, ite_true, applyMoveTemplate_whiteToMove, husEq,
          applyMoveTemplate_piece_to_nonpromo, if_false, ite_false, Bool.false_eq_true,
          not_false_eq_true, ne_eq, not_true]
        exact template_roundtrip_promo_quiet _ b m acc net hus hP1 hP4 hFT hpF hrest
          hbitF hbitTP hltP hk1 hk2 hacc
    · rw [if_neg hprom] at hkind
      have hpromF : MOVE_PROMOTION m = 0 := by omega
      by_cases hcastle : MOVE_IS_CASTLING m = true
      · rw [if_pos hcastle] at hkind
        obtain ⟨hpF, hpT, hFRF, hFRT, hTRF, hTRT, hRFRT, hpRF, hpRT⟩ := hkind
        have hmtF : PIECE_TYPE_OF (aget b.piece (MOVE_FROM m)) = 5 := by
          rw [hpF]
          exact PIECE_TYPE_OF_make 5 _ (by omega) hus
        have h50 : (5 : Nat) ≠ 0 := by decide
        have hb1T5 : PIECE_TYPE_OF (aget (applyMoveTemplate (if b.whiteToMove then 0 else 1)
            5 false false true false b m (some acc) (some net)).1.piece (MOVE_TO m)) = 5 := by
          rw [applyMoveTemplate_piece_to_castle _ b m (some acc) (some net) hTRF hTRT, hmtF]
        simp only [roundTrip, applyMove, undoMove, hmtF, hep, hprom, hpromF, hcastle,
          eq_self_iff_true, if_true, ite_true, applyMoveTemplate_whiteToMove, husEq, hb1T5,
          if_false, ite_false, Bool.false_eq_true, not_false_eq_true, ne_eq, not_true, h50]
        exact template_roundtrip_castle _ b m _ _ acc net hus rfl rfl hFT hFRF hFRT hTRF
          hTRT hRFRT hpF hpT hpRF hpRT hk1 hk2 hacc
      · rw [if_neg hcastle] at hkind
        rw [Bool.not_eq_true] at hcastle
        obtain ⟨hmt6, hpF, hrest⟩ := hkind
        by_cases hcap : MOVE_IS_CAPTURE m = true
        · rw [if_pos hcap] at hrest
          obtain ⟨hct6, hpT, hbitT, hlt⟩ := hrest
          by_cases hmt0 : PIECE_TYPE_OF (aget b.piece (MOVE_FROM m)) = 0
          · rw [hmt0] at hpF hmt6
            simp only [roundTrip, applyMove, undoMove, hmt0, hep, hprom, hpromF, hcastle,
              hcap, eq_self_iff_true, if_true, ite_true, applyMoveTemplate_whiteToMove,
              husEq, applyMoveTemplate_piece_to_nonpromo, if_false, ite_false,
              Bool.false_eq_true, not_false_eq_true, ne_eq, not_true]
            exact template_roundtrip_capture _ 0 _ b m acc net hus hmt6 hct6 hFT hpF hpT
              hbitT hlt hk1 hk2 hacc
          · by_cases hmt5 : PIECE_TYPE_OF (aget b.piece (MOVE_FROM m)) = 5
            · rw [hmt5] at hpF hmt6
              have h50 : (5 : Nat) ≠ 0 := by decide
              simp only [roundTrip, applyMove, undoMove, hmt5, hmt0, hep, hprom, hpromF,
                hcastle, hcap, h50, eq_self_iff_true, if_true, ite_true,
                applyMoveTemplate_whiteToMove, husEq, applyMoveTemplate_piece_to_nonpromo,
                if_false, ite_false, Bool.false_eq_true, not_false_eq_true, ne_eq, not_true]
              exact template_roundtrip_capture _ 5 _ b m acc net hus hmt6 hct6 hFT hpF hpT
                hbitT hlt hk1 hk2 hacc
            · simp only [roundTrip, applyMove, undoMove, hmt5, hmt0, hep, hprom, hpromF,
                hcastle, hcap, eq_self_iff_true, if_true, ite_true,
                applyMoveTemplate_whiteToMove, husEq, applyMoveTemplate_piece_to_nonpromo,
                if_false, ite_false, Bool.false_eq_true, not_false_eq_true, ne_eq, not_true]
              exact template_roundtrip_capture _ _ _ b m acc net hus hmt6 hct6 hFT hpF hpT
                hbitT hlt hk1 hk2 hacc
        · rw [Bool.not_eq_true] at hcap
          rw [if_neg (by rw [hcap]; exact Bool.false_ne_true)] at hrest
          by_cases hmt0 : PIECE_TYPE_OF (aget b.piece (MOVE_FROM m)) = 0
          · rw [hmt0] at hpF hmt6
            simp only [roundTrip, applyMove, undoMove, hmt0, hep, hprom, hpromF, hcastle,
              hcap, eq_self_iff_true, if_true, ite_true, applyMoveTemplate_whiteToMove,
              husEq, applyMoveTemplate_piece_to_nonpromo, if_false, ite_false,
              Bool.false_eq_true, not_false_eq_true, ne_eq, not_true]
            exact template_roundtrip_quiet _ 0 b m acc net hus hmt6 hFT hpF hrest hk1 hk2 hacc
          · by_cases hmt5 : PIECE_TYPE_OF (aget b.piece (MOVE_FROM m)) = 5
            · rw [hmt5] at hpF hmt6
              have h50 : (5 : Nat) ≠ 0 := by decide
              simp only [roundTrip, applyMove, undoMove, hmt5, hmt0, hep, hprom, hpromF,
                hcastle, hcap, h50, eq_self_iff_true, if_true, ite_true,
                applyMoveTemplate_whiteToMove, husEq, applyMoveTemplate_piece_to_nonpromo,
                if_false, ite_false, Bool.false_eq_true, not_false_eq_true, ne_eq, not_true]
              exact template_roundtrip_quiet _ 5 b m acc net hus hmt6 hFT hpF hrest hk1 hk2 hacc
            · simp only [roundTrip, applyMove, undoMove, hmt5, hmt0, hep, hprom, hpromF,
                hcastle, hcap, eq_self_iff_true, if_true, ite_true,
                applyMoveTemplate_whiteToMove, husEq, applyMoveTemplate_piece_to_nonpromo,
                if_false, ite_false, Bool.false_eq_true, not_false_eq_true, ne_eq, not_true]
              exact template_roundtrip_quiet _ _ b m acc net hus hmt6 hFT hpF hrest hk1 hk2 hacc


def c2CexBoard : Board :=
  { piece := fun i => if (i : Nat) = 4 then 6 else if (i : Nat) = 60 then 12
      else if (i : Nat) = 6 then 2 else 0
    byTypeBB := fun c t =>
      if (c : Nat) = 0 then (if (t : Nat) = 5 then bit 4 else if (t : Nat) = 1 then bit 6 else 0)
      else (if (t : Nat) = 5 then bit 60 else 0)
    byColorBB := fun c => if (c : Nat) = 0 then bit 4 ||| bit 6 else bit 60
    whiteToMove := true
    castlingRights := 0
    halfMoveClock := 0
    fullMoveNumber := 1
    enPassantSquare := 64
    zobristKey := 0
    history := fun _ => 0
    historyIndex := 0 }

def c2CexMove : Nat := CREATE_MOVE 6 21 0 0 0 0 0

def c2Net : NNUENetwork :=
  { ft_weights := fun _ _ _ => 0, ft_biases := fun _ => 0,
    output_weights := fun _ _ => 0, output_biases := fun _ => 0 }

def c2WitAcc : NNUEAccumulator := nnue_refresh_accumulator c2CexBoard c2Net

/-- The original byte-for-byte claim fails: applying and undoing the knight
move g1-f3 on a three-piece position leaves the pushed Zobrist key in
history slot 0, so the final board differs from the original. -/
theorem C2_counterexample :
    aget (roundTrip c2CexBoard c2CexMove none none).1.history 0 ≠
      aget c2CexBoard.history 0 := by
  decide

/-- Witness for claim C2 at the same three-piece position with the real
refreshed accumulator of the zero network: all side conditions hold by
computation and the round trip restores everything except history slot 0. -/
theorem C2_make_unmake_roundtrip_witness :
    roundTrip c2CexBoard c2CexMove (some c2WitAcc) (some c2Net) =
      ({ c2CexBoard with history := (aset c2CexBoard.history c2CexBoard.historyIndex
          (applyMove c2CexBoard c2CexMove (some c2WitAcc) (some c2Net)).1.zobristKey) },
       some c2WitAcc) :=
  C2_make_unmake_roundtrip c2CexBoard c2CexMove c2WitAcc c2Net (by decide) (by decide)
    (by decide) rfl
